import Mathlib

/-!
# aws-stream-transcriber: a verification development for `main.go`

The program decodes a WAV file, opens one streaming-transcription session,
uploads the decoded bytes in frames of `frameSize` bytes from a goroutine and,
on the main goroutine, prints every transcript alternative it receives.

The embedding has three layers.

* Pure data and loops: `Buffer` (Go `bytes.Buffer`), the sample-loading loop of
  `main.go:80-89`, the frame loop of the SDK helper `StreamAudioFromReader`
  and the rendering loops of `main.go:99-110`.
* The sequential part of `main` (`main.go:18-89`) as a function of the
  environment's answers (`Env`) that yields the trace of calls made and either
  the fatal error that ended the process or the loaded buffer.
* The concurrent part (`main.go:91-114`) as two small step functions, one for
  the main goroutine and one for the uploader goroutine, run under an explicit
  schedule. `log.Fatalf` writes its diagnostic and then ends the whole process
  (`os.Exit(1)`) without running deferred calls; between the two the other
  goroutine may run. Returning from `main` runs the deferred calls and ends the
  process with status 0 without waiting for the uploader. A nil-pointer
  dereference in the event loop panics: the deferred calls run and the process
  ends with status 2.
-/

namespace Transcriber

/-! ## Data model -/

/-- A byte of audio data. -/
abbrev Byte := Fin 256

/-- The constant `frameSize = 10 * 1024` of `main.go:16`. -/
def frameSize : Nat := 10 * 1024

/-- Go `make([]byte, n)`: a slice of `n` zero bytes. -/
def makeBytes (n : Nat) : List Byte := List.replicate n 0

/-- Go `bytes.Buffer`, seen through its documented contract: `unread` is the
content written (or given at construction) and not yet read, `b.buf[b.off:]`. -/
structure Buffer where
  unread : List Byte
deriving DecidableEq, Repr

/-- Go `bytes.NewBuffer(buf)`: "creates and initializes a new Buffer using buf
as its initial contents". -/
def NewBuffer (buf : List Byte) : Buffer := ⟨buf⟩

/-- Go `(*bytes.Buffer).Write(p)`: appends `p` to the buffer. -/
def Buffer.Write (b : Buffer) (p : List Byte) : Buffer := ⟨b.unread ++ p⟩

/-- Go `(*bytes.Buffer).Read(p)` for a destination `p` of length `n`: the bytes
copied into `p`, whether the error is `io.EOF`, and the buffer afterwards. On an
empty buffer the result is `0, io.EOF` (`0, nil` when `n = 0`); otherwise the next
`min n (len unread)` bytes with a `nil` error. -/
def Buffer.Read (b : Buffer) (n : Nat) : List Byte × Bool × Buffer :=
  if b.unread = [] then ([], n != 0, b)
  else (b.unread.take n, false, ⟨b.unread.drop n⟩)

/-- The header values `wav.Reader` reports: `GetSampleRate()` (a `uint32`) and
`GetNumChannels()` (a `uint16`). -/
structure WavHeader where
  SampleRate : Nat
  NumChannels : Nat
deriving DecidableEq, Repr

/-- Go conversion `int64(x)` of an unsigned value: wrap modulo `2^64` into the
signed range. -/
def int64 (x : Nat) : Int :=
  if x % 2 ^ 64 < 2 ^ 63 then ((x % 2 ^ 64 : Nat) : Int)
  else ((x % 2 ^ 64 : Nat) : Int) - 2 ^ 64

/-- The fields of `StartStreamTranscriptionInput` that `main.go:55-62` sets. -/
structure StartStreamTranscriptionInput where
  EnableChannelIdentification : Bool
  LanguageCode : String
  MediaEncoding : String
  MediaSampleRateHertz : Int
  NumberOfChannels : Int
  EnablePartialResultsStabilization : Bool
deriving DecidableEq, Repr

/-- SDK constant `transcribestreamingservice.LanguageCodeEnUs`. -/
def LanguageCodeEnUs : String := "en-US"

/-- SDK constant `transcribestreamingservice.MediaEncodingPcm`. -/
def MediaEncodingPcm : String := "pcm"

/-- One alternative of a result; `Transcript` is a `*string` and may be nil. -/
structure Alternative where
  Transcript : Option String
deriving DecidableEq, Repr

/-- One result of a transcript: `Alternatives` is a `[]*Alternative`, a slice
of pointers any of which may be nil (`none`). -/
structure Result where
  Alternatives : List (Option Alternative)
deriving DecidableEq, Repr

/-- The `Transcript` member of a `TranscriptEvent`: `Results` is a `[]*Result`,
a slice of pointers any of which may be nil (`none`). -/
structure Transcript where
  Results : List (Option Result)
deriving DecidableEq, Repr

/-- The event variant `*transcribestreamingservice.TranscriptEvent`, from its
members on (the event value is the one the SDK's reader allocates and decodes
into). Its member `Transcript` is a `*Transcript`; it is nil (`none`) when the
decoded payload holds no transcript. -/
structure TranscriptEvent where
  Transcript : Option Transcript
deriving DecidableEq, Repr

/-- A value received from `stream.Events()`: a transcript event, or a value of
any other dynamic type (named by what `%T` prints). -/
inductive Event where
  | transcript (e : TranscriptEvent)
  | other (typeName : String)
deriving DecidableEq, Repr

/-- SDK `aws.StringValue`: the string pointed to, or the empty string for nil. -/
def StringValue (s : Option String) : String :=
  match s with
  | some v => v
  | none => ""

/-! ## Fatal errors, actions and the sequential monad -/

/-- The `log.Fatal`/`log.Fatalf` call sites of `main.go`, each with the text of
the error it reports. -/
inductive Fatal where
  | usage
  | stat (e : String)
  | openFile (e : String)
  | closeFile (e : String)
  | newReader (e : String)
  | newSession (e : String)
  | startStream (e : String)
  | closeStream (e : String)
  | readSample (e : String)
  | streamAudio (e : String)
  | unexpectedEvent (typeName : String)
  | streamErr (e : String)
deriving DecidableEq, Repr

/-- The diagnostic line each fatal call prints. -/
def Fatal.message : Fatal → String
  | .usage => "Usage: transcribe <filename>"
  | .stat e => "failed to read stats of file, " ++ e
  | .openFile e => "failed to open file, " ++ e
  | .closeFile e => "failed to close file, " ++ e
  | .newReader e => "failed to create wav reader, " ++ e
  | .newSession e => "failed to load SDK configuration, " ++ e
  | .startStream e => "failed to start streaming, " ++ e
  | .closeStream e => "failed to close stream, " ++ e
  | .readSample e => "failed to read sample, " ++ e
  | .streamAudio e => "failed to stream audio, " ++ e
  | .unexpectedEvent t => "unexpected event, " ++ t
  | .streamErr e => "expect no error from stream, got " ++ e

/-- Whether the fatal call site lies in the sequential part of `main`
(`main.go:18-89`). -/
def Fatal.isLoad : Fatal → Bool
  | .usage | .stat _ | .openFile _ | .newReader _ | .newSession _ | .startStream _
  | .readSample _ => true
  | _ => false

/-- How the process ended: `main` returned (status 0), a fatal call ran
`os.Exit(1)`, or the main goroutine panicked and the runtime ended the process
with status 2 after the deferred calls. -/
inductive Exit where
  | returned
  | fatal (f : Fatal)
  | panic
deriving DecidableEq, Repr

/-- The process exit status. -/
def Exit.code : Exit → Nat
  | .returned => 0
  | .fatal _ => 1
  | .panic => 2

/-- The calls of `main.go` that are visible outside the process, in the order
they are made. -/
inductive Action where
  | println (msg : String)
  | osStat
  | osOpen
  | wavNewReader
  | sessionNewSession
  | StartStreamTranscription (input : StartStreamTranscriptionInput)
  | ReadRawSample
  | Send (frame : List Byte)
  | writerClose
  | printf (line : String)
  | streamClose
  | fileClose
  | fatalf (f : Fatal)
deriving DecidableEq, Repr

/-- A sequential computation of `main`: the trace of actions so far and either
the fatal error that ended the process or a value. -/
def Run (α : Type) : Type := List Action × Except Fatal α

/-- Sequencing: after a fatal error nothing else runs. -/
def Run.bind {α β : Type} (m : Run α) (k : α → Run β) : Run β :=
  match m.2 with
  | .error f => (m.1, .error f)
  | .ok x => (m.1 ++ (k x).1, (k x).2)

instance : Monad Run where
  pure x := ([], .ok x)
  bind := Run.bind

/-- Perform one action. -/
def act (a : Action) : Run Unit := ([a], .ok ())

/-- Go `log.Fatalf` in the sequential part: print the diagnostic and end the
process with status 1; deferred calls do not run. No other goroutine of
`main.go` exists before the `go` statement, so nothing runs in between. -/
def fatalf {α : Type} (f : Fatal) : Run α := ([.fatalf f], .error f)

/-- The Go idiom `if err != nil { log.Fatalf(...) }`. -/
def check (err : Option String) (f : String → Fatal) : Run Unit :=
  match err with
  | none => pure ()
  | some e => fatalf (f e)

/-! ## The environment -/

/-- The answers of everything outside `main.go` during one run. -/
structure Env where
  /-- The value of `os.Args`. -/
  Args : List String
  /-- The error of `os.Stat`, if any. -/
  statErr : Option String
  /-- The error of `os.Open`, if any. -/
  openErr : Option String
  /-- The result of `wav.NewReader`: an error or the decoded header. -/
  newReader : Except String WavHeader
  /-- The error of `session.NewSession`, if any. -/
  newSessionErr : Option String
  /-- The error of `client.StartStreamTranscription`, if any. -/
  startErr : Option String
  /-- The sample blocks successive `ReadRawSample` calls return. -/
  blocks : List (List Byte)
  /-- What `ReadRawSample` returns after the blocks: `io.EOF` (`none`) or
  another error. -/
  readEnd : Option String
  /-- The error of the `k`-th `Send` call (counted from 0), if any. -/
  sendErr : Nat → Option String
  /-- The error of `stream.Writer.Close()`, if any. -/
  writerCloseErr : Option String
  /-- The values delivered on `stream.Events()` before the channel closes. -/
  events : List Event
  /-- The value of `stream.Err()` after the event channel closed. -/
  streamErr : Option String
  /-- The error of `stream.Close()`, if any. -/
  streamCloseErr : Option String
  /-- The error of `file.Close()`, if any. -/
  fileCloseErr : Option String

/-! ## The loops -/

/-- The loading loop of `main.go:80-89`: every block read is written to the
buffer; `io.EOF` leaves the loop; any other error is fatal. -/
def readLoop : List (List Byte) → Option String → Buffer → Run Buffer
  | [], none, buffer => (act .ReadRawSample).bind fun _ => pure buffer
  | [], some e, _ => (act .ReadRawSample).bind fun _ => fatalf (.readSample e)
  | s :: rest, readEnd, buffer =>
    (act .ReadRawSample).bind fun _ => readLoop rest readEnd (buffer.Write s)

/-- The buffer that `main` hands to `StreamAudioFromReader` when the decoder
yields `blocks` and then `io.EOF` (`main.go:76-89`). -/
def loadBuffer (blocks : List (List Byte)) : Except Fatal Buffer :=
  (readLoop blocks none (NewBuffer (makeBytes frameSize))).2

/-- What one iteration of the frame loop does: the frame passed to `Send` (if
any) and whether the loop goes on with the rest of the input or returns. -/
inductive Iter where
  | next (sent : Option (List Byte)) (input : Buffer)
  | done (sent : Option (List Byte)) (err : Option String)
deriving DecidableEq, Repr

/-- Modelled from the spec: the SDK helper `StreamAudioFromReader`, called at
`main.go:93`, is library code outside `src/`. The spec (4.2, 4.3) has the buffer
exposed as frames of the configured size, the last one possibly shorter, sent
in order, any transmission error being an error of the upload. One iteration of
the helper's loop: `n, err = input.Read(frame)`; when `n > 0` the chunk
`frame[:n]` is sent and a send error is returned; otherwise `io.EOF` ends the
loop without error. -/
def streamIter (frameSize : Nat) (input : Buffer) (sendErr : Option String) : Iter :=
  match input.Read frameSize with
  | (chunk, eof, rest) =>
    if chunk ≠ [] then
      match sendErr with
      | some e => .done (some chunk) (some ("failed to send audio event, " ++ e))
      | none => .next (some chunk) rest
    else if eof then .done none none
    else .next none rest

/-- Modelled from the spec: the frame loop of `StreamAudioFromReader` run for
at most `fuel` iterations, `sent` being the number of `Send` calls made before.
The result is the frames passed to `Send`, in order, and the loop's error;
`none` when the fuel does not suffice. -/
def streamLoop (frameSize : Nat) (sendErr : Nat → Option String) :
    Nat → Buffer → Nat → Option (List (List Byte) × Option String)
  | 0, _, _ => none
  | fuel + 1, input, sent =>
    match streamIter frameSize input (sendErr sent) with
    | .done frame err => some (frame.toList, err)
    | .next frame rest =>
      match streamLoop frameSize sendErr fuel rest (sent + frame.toList.length) with
      | none => none
      | some (frames, err) => some (frame.toList ++ frames, err)

/-- Modelled from the spec: the error `StreamAudioFromReader` returns, given the
error of its loop. The deferred `stream.Close()` of the writer (the
end-of-audio signal) runs on every return, and its error is reported when the
loop had none. -/
def uploadResult (loopErr writerCloseErr : Option String) : Option String :=
  match loopErr with
  | some e => some e
  | none => writerCloseErr.map fun e => "failed to close stream, " ++ e

/-- Modelled from the spec: `StreamAudioFromReader(ctx, writer, frameSize,
input)` as a whole: the frames passed to `Send` and the returned error. -/
def StreamAudioFromReader (fuel frameSize : Nat) (input : Buffer)
    (sendErr : Nat → Option String) (writerCloseErr : Option String) :
    Option (List (List Byte) × Option String) :=
  (streamLoop frameSize sendErr fuel input 0).map fun r =>
    (r.1, uploadResult r.2 writerCloseErr)

/-- The frames the upload activity sends for a given input when no send fails. -/
def framesSent (fuel frameSize : Nat) (input : Buffer) : Option (List (List Byte)) :=
  (StreamAudioFromReader fuel frameSize input (fun _ => none) none).map Prod.fst

/-- The inner loop of `main.go:103-105`: one line per alternative, and whether
the loop panicked. `alt.Transcript` on a nil `alt` is a nil-pointer
dereference: the loop panics, after the lines printed so far. -/
def renderAlternatives : List (Option Alternative) → List String × Bool
  | [] => ([], false)
  | none :: _ => ([], true)
  | some alt :: rest =>
    (("* " ++ StringValue alt.Transcript) :: (renderAlternatives rest).1,
      (renderAlternatives rest).2)

/-- The loop of `main.go:102-106` over the results of one transcript, and
whether it panicked. `res.Alternatives` on a nil `res` is a nil-pointer
dereference. -/
def renderResults : List (Option Result) → List String × Bool
  | [] => ([], false)
  | none :: _ => ([], true)
  | some res :: rest =>
    if (renderAlternatives res.Alternatives).2 then
      ((renderAlternatives res.Alternatives).1, true)
    else
      ((renderAlternatives res.Alternatives).1 ++ (renderResults rest).1,
        (renderResults rest).2)

/-- The body of the `TranscriptEvent` case (`main.go:102-106`): the lines one
consumed transcript event renders, and whether rendering it panicked.
`e.Transcript.Results` on a nil `e.Transcript` is a nil-pointer dereference. -/
def renderEvent (e : TranscriptEvent) : List String × Bool :=
  match e.Transcript with
  | none => ([], true)
  | some t => renderResults t.Results

/-- How the event loop of `main.go:99-110` ends: the channel was closed, an
unexpected event was fatal, or a nil-pointer dereference panicked. -/
inductive ConsumeEnd where
  | drained
  | unexpected (typeName : String)
  | panicked
deriving DecidableEq, Repr

/-- The event loop of `main.go:99-110` on its own: the lines printed and how
the loop ends. -/
def consumeEvents : List Event → List String × ConsumeEnd
  | [] => ([], .drained)
  | .transcript e :: rest =>
    if (renderEvent e).2 then ((renderEvent e).1, .panicked)
    else ((renderEvent e).1 ++ (consumeEvents rest).1, (consumeEvents rest).2)
  | .other t :: _ => ([], .unexpected t)

/-- Whether every pointer inside the event is set: the transcript, every result
and every alternative. -/
def TranscriptEvent.noNil (e : TranscriptEvent) : Bool :=
  match e.Transcript with
  | none => false
  | some t => t.Results.all fun r =>
      match r with
      | none => false
      | some res => res.Alternatives.all Option.isSome

/-- The results of an event that are present. -/
def TranscriptEvent.results (e : TranscriptEvent) : List Result :=
  match e.Transcript with
  | none => []
  | some t => t.Results.filterMap id

/-- The alternatives of a result that are present. -/
def Result.alternatives (r : Result) : List Alternative :=
  r.Alternatives.filterMap id

/-- The rendering contract in the spec's words (4.4): for every result, for
every alternative within it, the alternative's text. -/
def specLines (e : TranscriptEvent) : List String :=
  e.results.flatMap fun r =>
    r.alternatives.map fun a => "* " ++ StringValue a.Transcript

/-- The number of alternatives of an event: the sum over its results of the
lengths of their `Alternatives` slices. -/
def alternativeCount (e : TranscriptEvent) : Nat :=
  match e.Transcript with
  | none => 0
  | some t => (t.Results.map fun r =>
      match r with
      | none => 0
      | some res => res.Alternatives.length).sum

/-! ## The sequential part of `main` -/

/-- The session parameters of `main.go:55-62` for a decoded header. -/
def sessionInput (wavReader : WavHeader) : StartStreamTranscriptionInput where
  EnableChannelIdentification := true
  LanguageCode := LanguageCodeEnUs
  MediaEncoding := MediaEncodingPcm
  MediaSampleRateHertz := int64 wavReader.SampleRate
  NumberOfChannels := int64 wavReader.NumChannels
  EnablePartialResultsStabilization := false

/-- The statements of `main.go:18-89`, up to the `go` statement: argument check,
stat, open, header decoding, SDK session, session open, then the loading loop.
The result is the buffer handed to the uploader. -/
def mainLoad (env : Env) : Run Buffer := do
  if env.Args.length < 2 then
    (fatalf .usage : Run Unit)
  act (.println "Opening file")
  act .osStat
  check env.statErr .stat
  act .osOpen
  check env.openErr .openFile
  act (.println "Reading file")
  act .wavNewReader
  let wavReader ← (match env.newReader with
    | .error e => fatalf (.newReader e)
    | .ok h => pure h : Run WavHeader)
  act (.println "Creating new stream for transcription")
  act .sessionNewSession
  check env.newSessionErr .newSession
  act (.StartStreamTranscription (sessionInput wavReader))
  check env.startErr .startStream
  let buffer := NewBuffer (makeBytes frameSize)
  act (.println "Loading wav file into buffer")
  readLoop env.blocks env.readEnd buffer

/-! ## The concurrent part of `main` -/

/-- The two goroutines. -/
inductive Tid where
  | main
  | uploader
deriving DecidableEq, Repr

/-- Where the main goroutine stands: still in `main.go:18-89`; in the event
loop, with the lines of the current event still to print, whether the current
event panics after them, and the events still to receive; at the
`stream.Err()` check; in the deferred `stream.Close()` or `file.Close()`
(`panicking` when they run because of a panic); inside a `log.Fatalf` whose
diagnostic is written and whose `os.Exit(1)` is still to come; or ended. -/
inductive MainPc where
  | loading
  | consuming (pending : List String) (panics : Bool) (events : List Event)
  | checkErr
  | closingStream (panicking : Bool)
  | closingFile (panicking : Bool)
  | fatal (f : Fatal)
  | ended
deriving DecidableEq, Repr

/-- Where the uploader goroutine of `main.go:91-97` stands: not started;
started with the buffer it captured; inside the frame loop; back from
`StreamAudioFromReader` with its error; inside `log.Fatalf` with the
diagnostic written and `os.Exit(1)` still to come; or finished. -/
inductive UpPc where
  | notStarted
  | spawned (buffer : Buffer)
  | streaming (input : Buffer) (sent : Nat)
  | returned (err : Option String)
  | fatal (err : String)
  | finished
deriving DecidableEq, Repr

/-- The state of the process. -/
structure Proc where
  trace : List Action
  exit : Option Exit
  main : MainPc
  up : UpPc
deriving DecidableEq, Repr

/-- Append one action to the trace. -/
def Proc.emit (p : Proc) (a : Action) : Proc :=
  { p with trace := p.trace ++ [a] }

/-- The first half of Go `log.Fatalf` on the main goroutine: the diagnostic is
written; `os.Exit(1)` is the goroutine's next step. -/
def Proc.mainFatalf (p : Proc) (f : Fatal) : Proc :=
  { p with trace := p.trace ++ [.fatalf f], main := .fatal f }

/-- The first half of Go `log.Fatalf` on the uploader goroutine
(`main.go:95`): the diagnostic is written; `os.Exit(1)` is the goroutine's next
step. -/
def Proc.upFatalf (p : Proc) (e : String) : Proc :=
  { p with trace := p.trace ++ [.fatalf (.streamAudio e)], up := .fatal e }

/-- One step of the main goroutine (`main.go:99-114` and the deferred calls of
`main.go:68-73` and `main.go:34-39`, run in that order when `main` returns or
panics). -/
def stepMain (env : Env) (p : Proc) : Proc :=
  if p.exit.isSome then p else
  match p.main with
  | .loading => p
  | .consuming (line :: pending) panics events =>
    { p.emit (.printf line) with main := .consuming pending panics events }
  | .consuming [] true _ => { p with main := .closingStream true }
  | .consuming [] false [] => { p with main := .checkErr }
  | .consuming [] false (.transcript e :: events) =>
    { p with main := .consuming (renderEvent e).1 (renderEvent e).2 events }
  | .consuming [] false (.other t :: _) => p.mainFatalf (.unexpectedEvent t)
  | .checkErr =>
    match env.streamErr with
    | some e => p.mainFatalf (.streamErr e)
    | none => { p with main := .closingStream false }
  | .closingStream panicking =>
    match env.streamCloseErr with
    | some e => (p.emit .streamClose).mainFatalf (.closeStream e)
    | none => { p.emit .streamClose with main := .closingFile panicking }
  | .closingFile panicking =>
    match env.fileCloseErr with
    | some e => (p.emit .fileClose).mainFatalf (.closeFile e)
    | none =>
      { p.emit .fileClose with
        main := .ended, exit := some (if panicking then .panic else .returned) }
  | .fatal f => { p with exit := some (.fatal f) }
  | .ended => p

/-- One step of the uploader goroutine (`main.go:91-97`): the log line, one
iteration of the frame loop of `StreamAudioFromReader`, the error check after
it returned, or the `os.Exit(1)` of its `log.Fatalf`. -/
def stepUp (env : Env) (p : Proc) : Proc :=
  if p.exit.isSome then p else
  match p.up with
  | .notStarted => p
  | .spawned buffer =>
    { p.emit (.println "Starting transcription") with up := .streaming buffer 0 }
  | .streaming input sent =>
    match streamIter frameSize input (env.sendErr sent) with
    | .next frame rest =>
      { p with trace := p.trace ++ frame.toList.map .Send,
               up := .streaming rest (sent + frame.toList.length) }
    | .done frame err =>
      { p with trace := p.trace ++ frame.toList.map .Send ++ [.writerClose],
               up := .returned (uploadResult err env.writerCloseErr) }
  | .returned (some e) => p.upFatalf e
  | .returned none => { p with up := .finished }
  | .fatal e => { p with exit := some (.fatal (.streamAudio e)) }
  | .finished => p

/-- One step of the goroutine the scheduler picks. -/
def step (env : Env) (t : Tid) (p : Proc) : Proc :=
  match t with
  | .main => stepMain env p
  | .uploader => stepUp env p

/-- The process at the `go` statement of `main.go:91`, or dead before it. -/
def start (env : Env) : Proc :=
  match mainLoad env with
  | (trace, .error f) =>
    { trace := trace, exit := some (.fatal f), main := .loading, up := .notStarted }
  | (trace, .ok buffer) =>
    { trace := trace, exit := none, main := .consuming [] false env.events,
      up := .spawned buffer }

/-- Run the process from state `p` under a schedule. -/
def runSched (env : Env) : List Tid → Proc → Proc
  | [], p => p
  | t :: rest, p => runSched env rest (step env t p)

/-- The program `main` under a schedule of its two goroutines. -/
def main (env : Env) (sched : List Tid) : Proc :=
  runSched env sched (start env)

/-! ## Observations on traces -/

/-- The transcript lines printed, in order. -/
def printed (trace : List Action) : List String :=
  trace.filterMap fun a => match a with
    | .printf line => some line
    | _ => none

/-- The session-open calls made, in order. -/
def opens (trace : List Action) : List StartStreamTranscriptionInput :=
  trace.filterMap fun a => match a with
    | .StartStreamTranscription input => some input
    | _ => none

/-- An environment in which nothing fails: a 16 kHz mono file with the given
sample blocks, and the given events from the service. -/
def okEnv (blocks : List (List Byte)) (events : List Event) : Env where
  Args := ["transcribe", "audio.wav"]
  statErr := none
  openErr := none
  newReader := .ok ⟨16000, 1⟩
  newSessionErr := none
  startErr := none
  blocks := blocks
  readEnd := none
  sendErr := fun _ => none
  writerCloseErr := none
  events := events
  streamErr := none
  streamCloseErr := none
  fileCloseErr := none

/-- The actions of a run that reaches the session-open call, before that call. -/
def preOpen : List Action :=
  [.println "Opening file", .osStat, .osOpen, .println "Reading file", .wavNewReader,
    .println "Creating new stream for transcription", .sessionNewSession]

/-- The calls that only the sequential part of `main` makes. -/
def isLoadCall : Action → Bool
  | .osStat | .osOpen | .wavNewReader | .sessionNewSession
  | .StartStreamTranscription _ | .ReadRawSample => true
  | _ => false

/-! ## Steps the main goroutine needs -/

/-- A bound on the steps the main goroutine takes from the head of the event
loop until the process has ended. -/
def eventsFuel : List Event → Nat
  | [] => 5
  | .other _ :: _ => 2
  | .transcript e :: rest =>
    1 + (renderEvent e).1.length + (if (renderEvent e).2 then 4 else eventsFuel rest)

/-- A bound on the steps the main goroutine takes from where it stands until
the process has ended. -/
def mainFuel : MainPc → Nat
  | .loading => 0
  | .consuming pending panics events =>
    pending.length + (if panics then 4 else eventsFuel events)
  | .checkErr => 4
  | .closingStream _ => 3
  | .closingFile _ => 2
  | .fatal _ => 1
  | .ended => 0

/-! ## Invariants of runs -/

/-- The invariant that ties a run of the process to the event loop taken on its
own (`consumeEvents`): the lines printed so far, the lines of the current event
still to print and the lines the loop prints for the events still to receive
make up the lines the loop prints for all events; and the way the process has
ended, if it has, agrees with where the main goroutine stands. -/
def ConsumeInv (env : Env) (p : Proc) : Prop :=
  match p.main with
  | .loading =>
    printed p.trace = [] ∧ ∃ f, p.exit = some (.fatal f) ∧ f.isLoad = true
  | .consuming pending panics events =>
    (p.exit = none ∨ ∃ e, p.exit = some (.fatal (.streamAudio e))) ∧
    printed p.trace ++ pending ++ (if panics then [] else (consumeEvents events).1) =
      (consumeEvents env.events).1 ∧
    (if panics then .panicked else (consumeEvents events).2) = (consumeEvents env.events).2
  | .checkErr =>
    (p.exit = none ∨ ∃ e, p.exit = some (.fatal (.streamAudio e))) ∧
    consumeEvents env.events = (printed p.trace, .drained)
  | .closingStream panicking =>
    (p.exit = none ∨ ∃ e, p.exit = some (.fatal (.streamAudio e))) ∧
    consumeEvents env.events = (printed p.trace, if panicking then .panicked else .drained)
  | .closingFile panicking =>
    (p.exit = none ∨ ∃ e, p.exit = some (.fatal (.streamAudio e))) ∧
    consumeEvents env.events = (printed p.trace, if panicking then .panicked else .drained)
  | .fatal f =>
    (p.exit = none ∨ p.exit = some (.fatal f) ∨ ∃ e, p.exit = some (.fatal (.streamAudio e))) ∧
    (consumeEvents env.events).1 = printed p.trace ∧
    (match f with
      | .unexpectedEvent t => (consumeEvents env.events).2 = .unexpected t
      | .streamErr _ => (consumeEvents env.events).2 = .drained
      | .closeStream _ =>
        (consumeEvents env.events).2 = .drained ∨ (consumeEvents env.events).2 = .panicked
      | .closeFile _ =>
        (consumeEvents env.events).2 = .drained ∨ (consumeEvents env.events).2 = .panicked
      | _ => False)
  | .ended =>
    (consumeEvents env.events).1 = printed p.trace ∧
    ((p.exit = some .returned ∧ (consumeEvents env.events).2 = .drained) ∨
      (p.exit = some .panic ∧ (consumeEvents env.events).2 = .panicked))

/-- A transcript event with one result holding the alternative `hello`. -/
def helloEvent : TranscriptEvent := ⟨some ⟨[some ⟨[some ⟨some "hello"⟩]⟩]⟩⟩

/-- A transcript event with two results, the first with two alternatives (one
of them with a nil text), the second with none. -/
def twoResultEvent : TranscriptEvent :=
  ⟨some ⟨[some ⟨[some ⟨some "good"⟩, some ⟨none⟩]⟩, some ⟨[]⟩]⟩⟩

/-- A transcript event whose `Transcript` member is nil, as decoded from an
empty payload. -/
def nilEvent : TranscriptEvent := ⟨none⟩

/-- A transcript event whose second result is a nil pointer, between two
results with one alternative each. -/
def nilResultEvent : TranscriptEvent :=
  ⟨some ⟨[some ⟨[some ⟨some "a"⟩]⟩, none, some ⟨[some ⟨some "b"⟩]⟩]⟩⟩

/-- A run in which the header decodes, the session opens, one sample block is
read and the next read fails with an error other than `io.EOF`. -/
def readFailEnv : Env :=
  { okEnv [[1, 2]] [] with readEnd := some "unexpected EOF" }

/-- A run in which nothing fails but every `Send`: the file has no sample
block, the service delivers one transcript event with one alternative and then
closes the event channel without a stream error. -/
def sendFailEnv : Env :=
  { okEnv [] [.transcript helloEvent] with sendErr := fun _ => some "broken pipe" }

/-- A run in which every `Send` fails and the service delivers one transcript
event with two alternatives. -/
def cutShortEnv : Env :=
  { okEnv [] [.transcript twoResultEvent] with sendErr := fun _ => some "broken pipe" }

/-- A run in which every `Send` fails and the service delivers a transcript
event and then an event of another type. -/
def sendFailUnexpectedEnv : Env :=
  { okEnv [] [.transcript helloEvent, .other "X"] with
    sendErr := fun _ => some "broken pipe" }

/-- A run in which nothing fails but closing the writer at the end of the
upload; the events are those of `sendFailEnv`. -/
def writerCloseFailEnv : Env :=
  { okEnv [] [.transcript helloEvent] with writerCloseErr := some "EOF" }

/-- A run in which nothing fails but the event stream, which reports an error
after the event channel closed. -/
def streamErrEnv : Env :=
  { okEnv [] [] with streamErr := some "connection reset" }

/-- The trace of the sequential part of a run of `okEnv` on a file with `n`
sample blocks. -/
def okLoadTrace (n : Nat) : List Action :=
  preOpen ++ .StartStreamTranscription (sessionInput ⟨16000, 1⟩) ::
    .println "Loading wav file into buffer" :: List.replicate (n + 1) .ReadRawSample

/-- A run on a file name that does not exist: `os.Stat` fails. -/
def missingFileEnv : Env :=
  { okEnv [] [] with statErr := some "no such file or directory" }

/-! ## Basic lemmas -/

theorem frameSize_pos : 0 < frameSize := by decide

theorem run_bind_act {β : Type} (a : Action) (k : Unit → Run β) :
    (act a).bind k = (a :: (k ()).1, (k ()).2) := by
  simp [Run.bind, act]

theorem readLoop_eof (blocks : List (List Byte)) : ∀ buffer : Buffer,
    readLoop blocks none buffer =
      (List.replicate (blocks.length + 1) Action.ReadRawSample,
        .ok ⟨buffer.unread ++ blocks.flatten⟩) := by
  induction blocks with
  | nil => intro buffer; simp [readLoop, run_bind_act, pure]
  | cons s rest ih =>
    intro buffer
    simp [readLoop, run_bind_act, ih, Buffer.Write, List.replicate_succ]

theorem loadBuffer_eq (blocks : List (List Byte)) :
    loadBuffer blocks = .ok ⟨makeBytes frameSize ++ blocks.flatten⟩ := by
  simp [loadBuffer, readLoop_eof, NewBuffer]

theorem streamIter_ok (F : Nat) (hF : 0 < F) (input : Buffer) (h : input.unread ≠ []) :
    streamIter F input none = .next (some (input.unread.take F)) ⟨input.unread.drop F⟩ := by
  have hF0 : F ≠ 0 := by omega
  simp [streamIter, Buffer.Read, h, hF0]

theorem run_bind_fatalf {α β : Type} (f : Fatal) (k : α → Run β) :
    (fatalf f : Run α).bind k = ([.fatalf f], .error f) := by
  simp [Run.bind, fatalf]

theorem readLoop_err (e : String) (blocks : List (List Byte)) : ∀ buffer : Buffer,
    readLoop blocks (some e) buffer =
      (List.replicate (blocks.length + 1) Action.ReadRawSample ++ [.fatalf (.readSample e)],
        .error (.readSample e)) := by
  induction blocks with
  | nil => intro buffer; simp [readLoop, run_bind_act, fatalf]
  | cons s rest ih =>
    intro buffer
    simp [readLoop, run_bind_act, ih, List.replicate_succ]

theorem mainLoad_shape (env : Env) :
    (env.Args.length < 2 ∧ mainLoad env = ([.fatalf .usage], .error .usage)) ∨
    (2 ≤ env.Args.length ∧ ∃ e, env.statErr = some e ∧
      mainLoad env = (preOpen.take 2 ++ [.fatalf (.stat e)], .error (.stat e))) ∨
    (2 ≤ env.Args.length ∧ env.statErr = none ∧ ∃ e, env.openErr = some e ∧
      mainLoad env = (preOpen.take 3 ++ [.fatalf (.openFile e)], .error (.openFile e))) ∨
    (2 ≤ env.Args.length ∧ env.statErr = none ∧ env.openErr = none ∧
      ∃ e, env.newReader = .error e ∧
      mainLoad env = (preOpen.take 5 ++ [.fatalf (.newReader e)], .error (.newReader e))) ∨
    (2 ≤ env.Args.length ∧ env.statErr = none ∧ env.openErr = none ∧
      ∃ h, env.newReader = .ok h ∧
      ((∃ e, env.newSessionErr = some e ∧
        mainLoad env = (preOpen ++ [.fatalf (.newSession e)], .error (.newSession e))) ∨
      (env.newSessionErr = none ∧ ∃ e, env.startErr = some e ∧
        mainLoad env = (preOpen ++ [.StartStreamTranscription (sessionInput h),
          .fatalf (.startStream e)], .error (.startStream e))) ∨
      (env.newSessionErr = none ∧ env.startErr = none ∧
        mainLoad env = (preOpen ++ .StartStreamTranscription (sessionInput h) ::
            .println "Loading wav file into buffer" ::
            (readLoop env.blocks env.readEnd (NewBuffer (makeBytes frameSize))).1,
          (readLoop env.blocks env.readEnd (NewBuffer (makeBytes frameSize))).2)))) := by
  by_cases hargs : env.Args.length < 2
  · left
    refine ⟨hargs, ?_⟩
    simp [mainLoad, bind, hargs, run_bind_fatalf]
  · right
    have h2 : 2 ≤ env.Args.length := by omega
    cases hstat : env.statErr with
    | some e =>
      left
      refine ⟨h2, e, rfl, ?_⟩
      simp [mainLoad, bind, hargs, run_bind_act, check, hstat, run_bind_fatalf, pure, Run.bind,
        preOpen, act, fatalf]
    | none =>
      right
      cases hopen : env.openErr with
      | some e =>
        left
        refine ⟨h2, rfl, e, rfl, ?_⟩
        simp [mainLoad, bind, hargs, check, hstat, hopen, pure, Run.bind, preOpen, act, fatalf]
      | none =>
        right
        cases hrd : env.newReader with
        | error e =>
          left
          refine ⟨h2, rfl, rfl, e, rfl, ?_⟩
          simp [mainLoad, bind, hargs, check, hstat, hopen, hrd, pure, Run.bind, preOpen, act,
            fatalf]
        | ok h =>
          right
          refine ⟨h2, rfl, rfl, h, rfl, ?_⟩
          cases hsess : env.newSessionErr with
          | some e =>
            left
            refine ⟨e, rfl, ?_⟩
            simp [mainLoad, bind, hargs, check, hstat, hopen, hrd, hsess, pure, Run.bind, preOpen,
              act, fatalf]
          | none =>
            right
            cases hstart : env.startErr with
            | some e =>
              left
              refine ⟨rfl, e, rfl, ?_⟩
              simp [mainLoad, bind, hargs, check, hstat, hopen, hrd, hsess, hstart, pure, Run.bind,
                preOpen, act, fatalf]
            | none =>
              right
              refine ⟨rfl, rfl, ?_⟩
              cases hrl : readLoop env.blocks env.readEnd (NewBuffer (makeBytes frameSize)) with
              | mk tr res =>
                cases res <;>
                simp [mainLoad, bind, hargs, check, hstat, hopen, hrd, hsess, hstart, pure,
                  Run.bind, preOpen, act, fatalf, hrl]

theorem stepMain_trace (env : Env) (p : Proc) :
    ∃ ext, (stepMain env p).trace = p.trace ++ ext ∧ ∀ a ∈ ext, isLoadCall a = false := by
  refine ⟨(stepMain env p).trace.drop p.trace.length, ?_, ?_⟩ <;>
  · unfold stepMain
    repeat' split
    all_goals simp [Proc.emit, Proc.mainFatalf, Proc.upFatalf, isLoadCall]

theorem stepUp_trace (env : Env) (p : Proc) :
    ∃ ext, (stepUp env p).trace = p.trace ++ ext ∧ ∀ a ∈ ext, isLoadCall a = false := by
  refine ⟨(stepUp env p).trace.drop p.trace.length, ?_, ?_⟩ <;>
  · unfold stepUp
    repeat' split
    all_goals simp [Proc.emit, Proc.mainFatalf, Proc.upFatalf, isLoadCall]
    try (rintro a (⟨f, _, rfl⟩ | rfl) <;> rfl)

theorem step_trace (env : Env) (t : Tid) (p : Proc) :
    ∃ ext, (step env t p).trace = p.trace ++ ext ∧ ∀ a ∈ ext, isLoadCall a = false := by
  cases t
  · exact stepMain_trace env p
  · exact stepUp_trace env p

theorem runSched_trace (env : Env) (sched : List Tid) : ∀ p : Proc,
    ∃ ext, (runSched env sched p).trace = p.trace ++ ext ∧ ∀ a ∈ ext, isLoadCall a = false := by
  induction sched with
  | nil => intro p; exact ⟨[], by simp [runSched]⟩
  | cons t rest ih =>
    intro p
    obtain ⟨e1, h1, h1'⟩ := step_trace env t p
    obtain ⟨e2, h2, h2'⟩ := ih (step env t p)
    refine ⟨e1 ++ e2, by simp [runSched, h2, h1], ?_⟩
    intro a ha
    rcases List.mem_append.mp ha with h | h
    · exact h1' a h
    · exact h2' a h

theorem start_trace (env : Env) : (start env).trace = (mainLoad env).1 := by
  unfold start
  split <;> simp_all

theorem main_trace (env : Env) (sched : List Tid) :
    ∃ conc, (main env sched).trace = (mainLoad env).1 ++ conc ∧
      ∀ a ∈ conc, isLoadCall a = false := by
  obtain ⟨ext, h, h'⟩ := runSched_trace env sched (start env)
  exact ⟨ext, by rw [main, h, start_trace], h'⟩


/-! ## The frames of the upload -/

theorem streamLoop_sent_irrel (F : Nat) : ∀ (fuel : Nat) (input : Buffer) (s1 s2 : Nat),
    streamLoop F (fun _ => none) fuel input s1 = streamLoop F (fun _ => none) fuel input s2 := by
  intro fuel
  induction fuel with
  | zero => intro input s1 s2; rfl
  | succ n ih =>
    intro input s1 s2
    simp only [streamLoop]
    split
    · rfl
    · rename_i frame rest _
      rw [ih rest (s1 + frame.toList.length) (s2 + frame.toList.length)]

theorem framesSent_eq (fuel F : Nat) (input : Buffer) :
    framesSent fuel F input = (streamLoop F (fun _ => none) fuel input 0).map Prod.fst := by
  simp [framesSent, StreamAudioFromReader, Option.map_map, Function.comp_def]

theorem framesSent_cons (F : Nat) (hF : 0 < F) (a rest : List Byte) (ha : a.length = F)
    (fuel : Nat) :
    framesSent (fuel + 1) F ⟨a ++ rest⟩ = (framesSent fuel F ⟨rest⟩).map fun fs => a :: fs := by
  have hne : (⟨a ++ rest⟩ : Buffer).unread ≠ [] := by
    intro h
    have h0 : (a ++ rest).length = 0 := by rw [show a ++ rest = [] from h]; rfl
    rw [List.length_append] at h0
    omega
  rw [framesSent_eq, framesSent_eq]
  simp only [streamLoop, streamIter_ok F hF _ hne]
  have ht : (a ++ rest).take F = a := by rw [← ha]; exact List.take_left a rest
  have hd : (a ++ rest).drop F = rest := by rw [← ha]; exact List.drop_left a rest
  simp only [ht, hd]
  rw [streamLoop_sent_irrel F fuel ⟨rest⟩ _ 0]
  cases streamLoop F (fun _ => none) fuel ⟨rest⟩ 0 with
  | none => rfl
  | some r => rfl

/-- C1, evaluated on the code: for the two sample blocks `[1, 2]` and `[3]` the
frames sent are one frame of `frameSize` zero bytes and then `[1, 2, 3]`; their
concatenation is not the concatenation of the sample blocks. -/
theorem C1_sent_bytes_differ_from_samples :
    loadBuffer [[1, 2], [3]] = .ok ⟨List.replicate frameSize 0 ++ [1, 2, 3]⟩ ∧
    framesSent 5 frameSize ⟨List.replicate frameSize 0 ++ [1, 2, 3]⟩ =
      some [List.replicate frameSize 0, [1, 2, 3]] ∧
    [List.replicate frameSize 0, [1, 2, 3]].flatten ≠ ([[1, 2], [3]] : List (List Byte)).flatten := by
  refine ⟨?_, ?_, ?_⟩
  · simpa [makeBytes] using loadBuffer_eq [[1, 2], [3]]
  · rw [framesSent_cons frameSize frameSize_pos _ _ (by simp) 4]
    have h : framesSent 4 frameSize ⟨[1, 2, 3]⟩ = some [[1, 2, 3]] := by decide
    rw [h]
    rfl
  · intro h
    have h1 := congrArg List.length h
    have h2 := frameSize_pos
    simp at h1
    omega

/-- C2, evaluated on the code: for the single one-byte sample block `[7]`
(N = 1) the upload sends two frames, the zero-filled frame and `[7]`, while
`ceil(N / frameSize)` is 1. -/
theorem C2_one_frame_too_many :
    loadBuffer [[7]] = .ok ⟨List.replicate frameSize 0 ++ [7]⟩ ∧
    framesSent 3 frameSize ⟨List.replicate frameSize 0 ++ [7]⟩ =
      some [List.replicate frameSize 0, [7]] ∧
    ([[7]] : List (List Byte)).flatten.length = 1 ∧
    (1 + frameSize - 1) / frameSize = 1 ∧
    [List.replicate frameSize 0, ([7] : List Byte)].length = 2 := by
  refine ⟨?_, ?_, by simp, by decide, by simp⟩
  · simpa [makeBytes] using loadBuffer_eq [[7]]
  · rw [framesSent_cons frameSize frameSize_pos _ _ (by simp) 2]
    have h : framesSent 2 frameSize ⟨[7]⟩ = some [[7]] := by decide
    rw [h]
    rfl


/-! ## The event loop -/

theorem renderAlternatives_noNil (alts : List (Option Alternative))
    (h : alts.all Option.isSome = true) :
    renderAlternatives alts =
      ((alts.filterMap id).map fun a => "* " ++ StringValue a.Transcript, false) := by
  induction alts with
  | nil => rfl
  | cons a rest ih =>
    cases a with
    | none => simp at h
    | some alt =>
      simp only [List.all_cons, Option.isSome_some, Bool.true_and] at h
      simp [renderAlternatives, ih h]

theorem filterMap_id_length (alts : List (Option Alternative))
    (h : alts.all Option.isSome = true) : (alts.filterMap id).length = alts.length := by
  induction alts with
  | nil => rfl
  | cons a rest ih =>
    cases a with
    | none => simp at h
    | some alt =>
      simp only [List.all_cons, Option.isSome_some, Bool.true_and] at h
      simp [ih h]

theorem renderResults_noNil (results : List (Option Result))
    (h : (results.all fun r =>
      match r with
      | none => false
      | some res => res.Alternatives.all Option.isSome) = true) :
    renderResults results =
      ((results.filterMap id).flatMap fun r =>
        r.alternatives.map fun a => "* " ++ StringValue a.Transcript, false) := by
  induction results with
  | nil => rfl
  | cons r rest ih =>
    cases r with
    | none => simp at h
    | some res =>
      simp only [List.all_cons, Bool.and_eq_true] at h
      simp [renderResults, renderAlternatives_noNil _ h.1, ih h.2, Result.alternatives]

theorem renderEvent_noNil (e : TranscriptEvent) (h : e.noNil = true) :
    renderEvent e = (specLines e, false) := by
  unfold TranscriptEvent.noNil at h
  unfold renderEvent specLines TranscriptEvent.results
  cases ht : e.Transcript with
  | none => simp [ht] at h
  | some t =>
    simp only [ht] at h
    simpa using renderResults_noNil t.Results h

theorem results_count_noNil (results : List (Option Result))
    (h : (results.all fun r =>
      match r with
      | none => false
      | some res => res.Alternatives.all Option.isSome) = true) :
    (((results.filterMap id).flatMap fun r =>
        r.alternatives.map fun a => "* " ++ StringValue a.Transcript).length) =
      (results.map fun r =>
        match r with
        | none => 0
        | some res => res.Alternatives.length).sum := by
  induction results with
  | nil => rfl
  | cons r rest ih =>
    cases r with
    | none => simp at h
    | some res =>
      simp only [List.all_cons, Bool.and_eq_true] at h
      have h1 := filterMap_id_length res.Alternatives h.1
      have h2 := ih h.2
      have h3 : List.filterMap id (some res :: rest) = res :: List.filterMap id rest := rfl
      rw [h3, List.flatMap_cons, List.length_append, h2, List.map_cons, List.sum_cons,
        List.length_map]
      show (List.filterMap id res.Alternatives).length + _ = _
      rw [h1]

theorem specLines_length (e : TranscriptEvent) (h : e.noNil = true) :
    (specLines e).length = alternativeCount e := by
  unfold TranscriptEvent.noNil at h
  unfold specLines TranscriptEvent.results alternativeCount
  cases ht : e.Transcript with
  | none => simp [ht] at h
  | some t =>
    simp only [ht] at h
    simpa using results_count_noNil t.Results h

theorem consumeEvents_transcripts (es : List TranscriptEvent)
    (h : ∀ x ∈ es, x.noNil = true) :
    consumeEvents (es.map .transcript) = ((es.map specLines).flatten, .drained) := by
  induction es with
  | nil => rfl
  | cons e rest ih =>
    have he := renderEvent_noNil e (h e (by simp))
    have hr := ih fun x hx => h x (by simp [hx])
    simp [consumeEvents, he, hr]

theorem consumeEvents_unexpected (pre : List TranscriptEvent) (t : String) (post : List Event)
    (h : ∀ x ∈ pre, x.noNil = true) :
    consumeEvents (pre.map .transcript ++ .other t :: post) =
      ((pre.map specLines).flatten, .unexpected t) := by
  induction pre with
  | nil => rfl
  | cons e rest ih =>
    have he := renderEvent_noNil e (h e (by simp))
    have hr := ih fun x hx => h x (by simp [hx])
    simp [consumeEvents, he, hr]

theorem printed_replicate_read (n : Nat) :
    printed (List.replicate n Action.ReadRawSample) = [] := by
  induction n with
  | zero => rfl
  | succ n ih => simp [printed, List.replicate_succ]

theorem readLoop_trace (blocks : List (List Byte)) (readEnd : Option String) (buffer : Buffer) :
    (readLoop blocks readEnd buffer).1 =
      List.replicate (blocks.length + 1) Action.ReadRawSample ++
        (match readEnd with
          | none => []
          | some e => [.fatalf (.readSample e)]) := by
  cases readEnd with
  | none => simp [readLoop_eof]
  | some e => simp [readLoop_err]

theorem readLoop_result (blocks : List (List Byte)) (readEnd : Option String) (buffer : Buffer) :
    (readLoop blocks readEnd buffer).2 =
      (match readEnd with
        | none => .ok ⟨buffer.unread ++ blocks.flatten⟩
        | some e => .error (.readSample e)) := by
  cases readEnd with
  | none => simp [readLoop_eof]
  | some e => simp [readLoop_err]

theorem printed_mainLoad (env : Env) : printed (mainLoad env).1 = [] := by
  rcases mainLoad_shape env with ⟨_, h⟩ | ⟨_, e, _, h⟩ | ⟨_, _, e, _, h⟩ | ⟨_, _, _, e, _, h⟩ |
    ⟨_, _, _, hd, _, ⟨e, _, h⟩ | ⟨_, e, _, h⟩ | ⟨_, _, h⟩⟩
  all_goals rw [h]
  all_goals try (simp [printed, preOpen]; done)
  rw [readLoop_trace]
  have := printed_replicate_read (env.blocks.length + 1)
  cases env.readEnd <;> simp_all [printed, preOpen]

theorem mainLoad_fatal (env : Env) (f : Fatal) (hf : (mainLoad env).2 = .error f) :
    f.isLoad = true := by
  rcases mainLoad_shape env with ⟨_, h⟩ | ⟨_, e, _, h⟩ | ⟨_, _, e, _, h⟩ | ⟨_, _, _, e, _, h⟩ |
    ⟨_, _, _, hd, _, ⟨e, _, h⟩ | ⟨_, e, _, h⟩ | ⟨_, _, h⟩⟩
  all_goals rw [h] at hf
  all_goals try (simp at hf; subst hf; rfl)
  rw [readLoop_result] at hf
  split at hf
  · simp at hf
  · simp at hf
    subst hf
    rfl

theorem consumeInv_start (env : Env) : ConsumeInv env (start env) := by
  have hp := printed_mainLoad env
  have hf := mainLoad_fatal env
  unfold start
  split
  · rename_i tr f heq
    rw [heq] at hp hf
    exact ⟨hp, f, rfl, hf f rfl⟩
  · rename_i tr buffer heq
    rw [heq] at hp
    simp [ConsumeInv]
    exact hp

theorem consumeInv_stepMain (env : Env) (p : Proc) (h : ConsumeInv env p) :
    ConsumeInv env (stepMain env p) := by
  unfold stepMain
  split
  · exact h
  · rename_i hex
    have hnone : p.exit = none := by
      cases hx : p.exit <;> simp_all
    split
    all_goals rename_i hpc
    all_goals simp only [ConsumeInv, hpc] at h
    all_goals try split
    all_goals first
      | (simp_all [ConsumeInv, Proc.emit, Proc.mainFatalf, printed, consumeEvents]; done)
      | (rename_i e events
         cases hr : (renderEvent e).2 <;>
           simp_all [ConsumeInv, Proc.emit, Proc.mainFatalf, printed, consumeEvents])


theorem stepUp_main (env : Env) (p : Proc) : (stepUp env p).main = p.main := by
  unfold stepUp
  repeat' split
  all_goals simp [Proc.emit, Proc.upFatalf]

theorem stepUp_printed (env : Env) (p : Proc) :
    printed (stepUp env p).trace = printed p.trace := by
  unfold stepUp
  repeat' split
  all_goals simp [Proc.emit, Proc.upFatalf, printed, List.filterMap_append]

theorem stepUp_exit (env : Env) (p : Proc) :
    (stepUp env p).exit = p.exit ∨
      (p.exit = none ∧ ∃ e, p.up = .fatal e ∧
        (stepUp env p).exit = some (.fatal (.streamAudio e))) := by
  unfold stepUp
  split
  · exact Or.inl rfl
  · rename_i hex
    have hnone : p.exit = none := by
      cases hx : p.exit <;> simp_all
    split
    all_goals try split
    all_goals simp_all [Proc.emit, Proc.upFatalf]

theorem consumeInv_stepUp (env : Env) (p : Proc) (h : ConsumeInv env p) :
    ConsumeInv env (stepUp env p) := by
  have h1 := stepUp_main env p
  have h2 := stepUp_printed env p
  unfold ConsumeInv at h ⊢
  rw [h1, h2]
  rcases stepUp_exit env p with h3 | ⟨h3, e, _, h4⟩
  · rw [h3]; exact h
  · rw [h4]
    split at h
    · obtain ⟨_, f, hf, _⟩ := h
      rw [h3] at hf
      cases hf
    all_goals simp_all

theorem consumeInv_runSched (env : Env) (sched : List Tid) :
    ∀ p : Proc, ConsumeInv env p → ConsumeInv env (runSched env sched p) := by
  induction sched with
  | nil => intro p h; exact h
  | cons t rest ih =>
    intro p h
    apply ih
    cases t
    · exact consumeInv_stepMain env p h
    · exact consumeInv_stepUp env p h

theorem consumeInv_main (env : Env) (sched : List Tid) : ConsumeInv env (main env sched) :=
  consumeInv_runSched env sched (start env) (consumeInv_start env)

/-- The lines printed in any run are an initial part of what the event loop on
its own prints. -/
theorem main_printed_initial (env : Env) (sched : List Tid) :
    ∃ rest, printed (main env sched).trace ++ rest = (consumeEvents env.events).1 := by
  have h := consumeInv_main env sched
  unfold ConsumeInv at h
  split at h
  · exact ⟨_, by rw [h.1]; rfl⟩
  · exact ⟨_, by rw [← h.2.1, List.append_assoc]⟩
  · exact ⟨[], by rw [h.2]; simp⟩
  · exact ⟨[], by rw [h.2]; simp⟩
  · exact ⟨[], by rw [h.2]; simp⟩
  · exact ⟨[], by rw [h.2.1]; simp⟩
  · exact ⟨[], by rw [h.1]; simp⟩

/-- How a run can have ended, and what the event loop on its own does in each
case: by a fatal call of the sequential part; by the upload's fatal call; by
the unexpected-event call, the loop ending at that event; by the stream-error
call, the loop having drained the channel; by the fatal call of a deferred
close; by returning from `main`, the loop having drained the channel; or by a
panic, the loop having panicked. In all but the first two the lines printed are
those the loop prints. -/
theorem main_exit_cases (env : Env) (sched : List Tid) (x : Exit)
    (hexit : (main env sched).exit = some x) :
    (∃ f, x = .fatal f ∧ f.isLoad = true ∧ (main env sched).main = .loading) ∨
    (∃ e, x = .fatal (.streamAudio e)) ∨
    ((consumeEvents env.events).1 = printed (main env sched).trace ∧
      ((∃ t, x = .fatal (.unexpectedEvent t) ∧ (consumeEvents env.events).2 = .unexpected t) ∨
       (∃ e, x = .fatal (.streamErr e) ∧ (consumeEvents env.events).2 = .drained) ∨
       (∃ e, (x = .fatal (.closeStream e) ∨ x = .fatal (.closeFile e)) ∧
         ((consumeEvents env.events).2 = .drained ∨
           (consumeEvents env.events).2 = .panicked)) ∨
       (x = .returned ∧ (consumeEvents env.events).2 = .drained) ∨
       (x = .panic ∧ (consumeEvents env.events).2 = .panicked))) := by
  have h := consumeInv_main env sched
  unfold ConsumeInv at h
  split at h
  · rename_i hpc
    obtain ⟨_, f, hf, hl⟩ := h
    rw [hexit] at hf
    cases hf
    exact Or.inl ⟨f, rfl, hl, hpc⟩
  · rcases h.1 with h1 | ⟨e, h1⟩
    · rw [hexit] at h1; cases h1
    · rw [hexit] at h1; cases h1; exact Or.inr (Or.inl ⟨e, rfl⟩)
  · rcases h.1 with h1 | ⟨e, h1⟩
    · rw [hexit] at h1; cases h1
    · rw [hexit] at h1; cases h1; exact Or.inr (Or.inl ⟨e, rfl⟩)
  · rcases h.1 with h1 | ⟨e, h1⟩
    · rw [hexit] at h1; cases h1
    · rw [hexit] at h1; cases h1; exact Or.inr (Or.inl ⟨e, rfl⟩)
  · rcases h.1 with h1 | ⟨e, h1⟩
    · rw [hexit] at h1; cases h1
    · rw [hexit] at h1; cases h1; exact Or.inr (Or.inl ⟨e, rfl⟩)
  · rename_i f hpc
    obtain ⟨h1, h2, h3⟩ := h
    rcases h1 with h1 | h1 | ⟨e, h1⟩
    · rw [hexit] at h1; cases h1
    · rw [hexit] at h1
      cases h1
      refine Or.inr (Or.inr ⟨h2, ?_⟩)
      cases f <;> simp_all
    · rw [hexit] at h1; cases h1; exact Or.inr (Or.inl ⟨e, rfl⟩)
  · obtain ⟨h1, h2⟩ := h
    refine Or.inr (Or.inr ⟨h1, ?_⟩)
    rcases h2 with ⟨h2, h3⟩ | ⟨h2, h3⟩
    · rw [hexit] at h2; cases h2
      exact Or.inr (Or.inr (Or.inr (Or.inl ⟨rfl, h3⟩)))
    · rw [hexit] at h2; cases h2
      exact Or.inr (Or.inr (Or.inr (Or.inr ⟨rfl, h3⟩)))


theorem stepMain_loading (env : Env) (p : Proc) (h : (stepMain env p).main = .loading) :
    p.main = .loading := by
  unfold stepMain at h
  split at h
  · exact h
  · split at h
    all_goals try split at h
    all_goals simp_all [Proc.emit, Proc.mainFatalf]

theorem runSched_loading (env : Env) (sched : List Tid) :
    ∀ p : Proc, (runSched env sched p).main = .loading → p.main = .loading := by
  induction sched with
  | nil => intro p h; exact h
  | cons t rest ih =>
    intro p h
    have h1 := ih _ h
    cases t
    · exact stepMain_loading env p h1
    · simpa [step, stepUp_main] using h1

theorem start_main (env : Env) (h : (start env).exit = none) :
    (start env).main = .consuming [] false env.events := by
  unfold start at h ⊢
  split
  · rename_i heq; simp [heq] at h
  · rfl

theorem main_not_loading (env : Env) (sched : List Tid) (h : (start env).exit = none) :
    (main env sched).main ≠ .loading := by
  intro hl
  have := runSched_loading env sched (start env) hl
  rw [start_main env h] at this
  cases this

/-! ## Every run in which the main goroutine keeps running ends -/

theorem stepMain_fuel (env : Env) (p : Proc) (hexit : p.exit = none)
    (h1 : p.main ≠ .loading) (h2 : p.main ≠ .ended) :
    (stepMain env p).exit.isSome = true ∨
      ((stepMain env p).exit = none ∧ (stepMain env p).main ≠ .loading ∧
        (stepMain env p).main ≠ .ended ∧
        mainFuel (stepMain env p).main + 1 ≤ mainFuel p.main) := by
  unfold stepMain
  simp only [hexit, Option.isSome_none, Bool.false_eq_true, ↓reduceIte]
  split
  all_goals try split
  all_goals simp_all [Proc.emit, Proc.mainFatalf, mainFuel, eventsFuel]
  all_goals try omega

theorem step_exit_absorbing (env : Env) (t : Tid) (p : Proc) (h : p.exit.isSome = true) :
    step env t p = p := by
  cases t <;> simp [step, stepMain, stepUp, h]

theorem runSched_exit_absorbing (env : Env) (sched : List Tid) :
    ∀ p : Proc, p.exit.isSome = true → runSched env sched p = p := by
  induction sched with
  | nil => intro p _; rfl
  | cons t rest ih =>
    intro p h
    rw [runSched, step_exit_absorbing env t p h]
    exact ih p h

theorem eventsFuel_pos (events : List Event) : 0 < eventsFuel events := by
  cases events with
  | nil => simp [eventsFuel]
  | cons ev rest => cases ev <;> simp [eventsFuel]

theorem mainFuel_pos (pc : MainPc) (h1 : pc ≠ .loading) (h2 : pc ≠ .ended) :
    0 < mainFuel pc := by
  cases pc with
  | loading => exact absurd rfl h1
  | ended => exact absurd rfl h2
  | consuming pending panics events =>
    have := eventsFuel_pos events
    simp only [mainFuel]
    split <;> omega
  | checkErr => simp [mainFuel]
  | closingStream b => simp [mainFuel]
  | closingFile b => simp [mainFuel]
  | fatal f => simp [mainFuel]

/-- Under any schedule that gives the main goroutine `mainFuel` steps, the
process has ended. -/
theorem runSched_ends (env : Env) (sched : List Tid) :
    ∀ p : Proc, (p.exit = none → p.main ≠ .loading ∧ p.main ≠ .ended) →
      mainFuel p.main ≤ sched.count .main →
      (runSched env sched p).exit.isSome = true := by
  induction sched with
  | nil =>
    intro p hgood hfuel
    cases hx : p.exit with
    | some x => simp [runSched, hx]
    | none =>
      exfalso
      obtain ⟨h1, h2⟩ := hgood hx
      have := mainFuel_pos p.main h1 h2
      simp only [List.count_nil, Nat.le_zero_eq] at hfuel
      omega
  | cons t rest ih =>
    intro p hgood hfuel
    cases hx : p.exit with
    | some x =>
      rw [runSched_exit_absorbing env _ p (by simp [hx])]
      simp [hx]
    | none =>
      obtain ⟨h1, h2⟩ := hgood hx
      rw [runSched]
      cases t with
      | main =>
        rcases stepMain_fuel env p hx h1 h2 with hs | ⟨hs1, hs2, hs3, hs4⟩
        · rw [runSched_exit_absorbing env _ _ (by simpa [step] using hs)]
          simpa [step] using hs
        · apply ih
          · intro _; exact ⟨by simpa [step] using hs2, by simpa [step] using hs3⟩
          · simp only [List.count_cons_self] at hfuel
            simp only [step]
            omega
      | uploader =>
        apply ih
        · intro _
          simp only [step, stepUp_main]
          exact ⟨h1, h2⟩
        · simp only [step, stepUp_main]
          have : List.count Tid.main (Tid.uploader :: rest) = List.count Tid.main rest := by
            simp
          omega

theorem main_ends (env : Env) (sched : List Tid) (hstart : (start env).exit = none)
    (hfuel : eventsFuel env.events ≤ sched.count .main) :
    (main env sched).exit.isSome = true := by
  apply runSched_ends env sched (start env)
  · intro _
    rw [start_main env hstart]
    exact ⟨by simp, by simp⟩
  · rw [start_main env hstart]
    simpa [mainFuel] using hfuel


/-! ## Runs in which the upload does not fail -/

theorem start_exit (env : Env) :
    (start env).exit = (match (mainLoad env).2 with
      | .error f => some (.fatal f)
      | .ok _ => none) := by
  unfold start
  split <;> simp_all

theorem stepMain_up (env : Env) (p : Proc) : (stepMain env p).up = p.up := by
  unfold stepMain
  repeat' split
  all_goals simp [Proc.emit, Proc.mainFatalf]

theorem streamIter_none_err (F : Nat) (input : Buffer) (frame : Option (List Byte))
    (err : Option String) (h : streamIter F input none = .done frame err) : err = none := by
  unfold streamIter at h
  split at h
  split at h
  · cases h
  · split at h
    · cases h; rfl
    · cases h

theorem stepUp_noFail (env : Env) (hs : ∀ k, env.sendErr k = none)
    (hw : env.writerCloseErr = none) (p : Proc)
    (h : (∀ e, p.up ≠ .returned (some e)) ∧ ∀ e, p.up ≠ .fatal e) :
    (∀ e, (stepUp env p).up ≠ .returned (some e)) ∧ ∀ e, (stepUp env p).up ≠ .fatal e := by
  unfold stepUp
  split
  · exact h
  · split
    · exact h
    · simp [Proc.emit]
    · rename_i input sent _
      rw [hs sent]
      split
      · simp
      · rename_i frame err heq
        have := streamIter_none_err _ _ _ _ heq
        subst this
        simp [uploadResult, hw]
    · rename_i e hpc
      exact absurd hpc (h.1 e)
    · simp
    · rename_i e hpc
      exact absurd hpc (h.2 e)
    · exact h

theorem runSched_noFail (env : Env) (hs : ∀ k, env.sendErr k = none)
    (hw : env.writerCloseErr = none) (sched : List Tid) :
    ∀ p : Proc, ((∀ e, p.up ≠ .returned (some e)) ∧ ∀ e, p.up ≠ .fatal e) →
      (∀ e, (runSched env sched p).up ≠ .returned (some e)) ∧
        ∀ e, (runSched env sched p).up ≠ .fatal e := by
  induction sched with
  | nil => intro p h; exact h
  | cons t rest ih =>
    intro p h
    apply ih
    cases t
    · simpa [step, stepMain_up] using h
    · exact stepUp_noFail env hs hw p h

theorem start_up (env : Env) :
    (∀ e, (start env).up ≠ .returned (some e)) ∧ ∀ e, (start env).up ≠ .fatal e := by
  unfold start
  split <;> simp

theorem stepMain_exit (env : Env) (p : Proc) (h : ConsumeInv env p) (e : String)
    (he : (stepMain env p).exit = some (.fatal (.streamAudio e))) :
    p.exit = some (.fatal (.streamAudio e)) := by
  unfold stepMain at he
  split at he
  · exact he
  · split at he
    all_goals rename_i hpc
    all_goals simp only [ConsumeInv, hpc] at h
    all_goals try split at he
    all_goals simp_all [Proc.emit, Proc.mainFatalf]
    split at he <;> cases he

theorem runSched_exit_up (env : Env) (sched : List Tid) :
    ∀ p : Proc, ConsumeInv env p →
      (∀ e, p.exit = some (.fatal (.streamAudio e)) → p.up = .fatal e) →
      ∀ e, (runSched env sched p).exit = some (.fatal (.streamAudio e)) →
        (runSched env sched p).up = .fatal e := by
  induction sched with
  | nil => intro p _ h; exact h
  | cons t rest ih =>
    intro p hinv h
    cases t with
    | main =>
      apply ih _ (consumeInv_stepMain env p hinv)
      intro e he
      have := stepMain_exit env p hinv e he
      simpa [step, stepMain_up] using h e this
    | uploader =>
      apply ih _ (consumeInv_stepUp env p hinv)
      intro e he
      rcases stepUp_exit env p with h3 | ⟨h3, e', h4, h5⟩
      · change (stepUp env p).exit = _ at he
        rw [h3] at he
        have hup := h e he
        have : stepUp env p = p := by
          unfold stepUp
          rw [he]
          rfl
        show (stepUp env p).up = _
        rw [this]
        exact hup
      · change (stepUp env p).exit = _ at he
        show (stepUp env p).up = _
        rw [h5] at he
        cases he
        have : (stepUp env p).up = p.up := by
          unfold stepUp
          rw [h3, h4]
          rfl
        rw [this, h4]

/-- When no `Send` and no writer close fails, no run ends through the upload's
fatal call. -/
theorem main_no_upload_exit (env : Env) (sched : List Tid) (hs : ∀ k, env.sendErr k = none)
    (hw : env.writerCloseErr = none) (e : String) :
    (main env sched).exit ≠ some (.fatal (.streamAudio e)) := by
  intro he
  have h1 := runSched_exit_up env sched (start env) (consumeInv_start env) (by
    intro e' he'
    have hinv := consumeInv_start env
    rw [start_exit] at he'
    split at he'
    · rename_i f heq
      have := mainLoad_fatal env f heq
      cases he'
      simp [Fatal.isLoad] at this
    · cases he') e he
  exact (runSched_noFail env hs hw sched (start env) (start_up env)).2 e h1


/-! ## Runs whose sequential part succeeds -/

theorem frameSize_ne_zero : frameSize ≠ 0 := by decide

theorem mainLoad_ok (env : Env) (h : WavHeader) (ha : 2 ≤ env.Args.length)
    (hs : env.statErr = none) (ho : env.openErr = none) (hr : env.newReader = .ok h)
    (hn : env.newSessionErr = none) (hst : env.startErr = none) (hre : env.readEnd = none) :
    mainLoad env =
      (preOpen ++ .StartStreamTranscription (sessionInput h) ::
          .println "Loading wav file into buffer" ::
          List.replicate (env.blocks.length + 1) .ReadRawSample,
        .ok ⟨List.replicate frameSize 0 ++ env.blocks.flatten⟩) := by
  rcases mainLoad_shape env with ⟨ha', _⟩ | ⟨_, e, he, _⟩ | ⟨_, _, e, he, _⟩ |
    ⟨_, _, _, e, he, _⟩ | ⟨_, _, _, hd, hr', ⟨e, he, _⟩ | ⟨_, e, he, _⟩ | ⟨_, _, hl⟩⟩
  · omega
  · rw [hs] at he; cases he
  · rw [ho] at he; cases he
  · rw [hr] at he; cases he
  · rw [hn] at he; cases he
  · rw [hst] at he; cases he
  · rw [hr] at hr'
    cases hr'
    rw [hl, hre, readLoop_eof]
    rfl

theorem start_ok (env : Env) (h : WavHeader) (ha : 2 ≤ env.Args.length)
    (hs : env.statErr = none) (ho : env.openErr = none) (hr : env.newReader = .ok h)
    (hn : env.newSessionErr = none) (hst : env.startErr = none) (hre : env.readEnd = none) :
    start env =
      { trace := preOpen ++ .StartStreamTranscription (sessionInput h) ::
          .println "Loading wav file into buffer" ::
          List.replicate (env.blocks.length + 1) .ReadRawSample,
        exit := none, main := .consuming [] false env.events,
        up := .spawned ⟨List.replicate frameSize 0 ++ env.blocks.flatten⟩ } := by
  unfold start
  rw [mainLoad_ok env h ha hs ho hr hn hst hre]

/-- The first iteration of the frame loop on the buffer built by `main`: the
frame read is the zero-filled slice the buffer was created from. -/
theorem streamIter_main (data : List Byte) (sendErr : Option String) :
    streamIter frameSize ⟨List.replicate frameSize 0 ++ data⟩ sendErr =
      (match sendErr with
        | some e => .done (some (List.replicate frameSize 0))
            (some ("failed to send audio event, " ++ e))
        | none => .next (some (List.replicate frameSize 0)) ⟨data⟩) := by
  have h1 : List.take frameSize (List.replicate frameSize (0 : Byte) ++ data) =
      List.replicate frameSize 0 := by
    simp
  have h2 : List.drop frameSize (List.replicate frameSize (0 : Byte) ++ data) = data := by
    simp
  have h3 : List.replicate frameSize (0 : Byte) ≠ [] := by
    simp [frameSize_ne_zero]
  simp only [streamIter, Buffer.Read, h1, h2]
  simp [h3, frameSize_ne_zero]

theorem streamIter_main_nil (sendErr : Option String) :
    streamIter frameSize ⟨List.replicate frameSize 0⟩ sendErr =
      (match sendErr with
        | some e => .done (some (List.replicate frameSize 0))
            (some ("failed to send audio event, " ++ e))
        | none => .next (some (List.replicate frameSize 0)) ⟨[]⟩) := by
  simpa using streamIter_main [] sendErr

/-! ## Claims on the event loop -/

/-- C7 (as stated, on the code): a transcript event whose `Transcript` is nil
makes the event loop panic, so for the events `nilEvent`, `helloEvent` the loop
prints nothing and the run ends with status 2, where the claim has the line of
`helloEvent` printed; and in the run of `cutShortEnv` the upload's fatal call
ends the process after one of the two lines of the consumed event. So it is not
the case that for every sequence of transcript events the lines of the loop are
the concatenation of the lines of the events. -/
theorem C7_lines_lost_on_nil_pointer_and_upload_exit :
    renderEvent nilEvent = ([], true) ∧
    consumeEvents [.transcript nilEvent, .transcript helloEvent] = ([], .panicked) ∧
    ([nilEvent, helloEvent].map specLines).flatten = ["* hello"] ∧
    (main (okEnv [] [.transcript nilEvent, .transcript helloEvent])
        [.main, .main, .main, .main]).exit = some .panic ∧
    printed (main (okEnv [] [.transcript nilEvent, .transcript helloEvent])
        [.main, .main, .main, .main]).trace = [] ∧
    Exit.code .panic = 2 ∧
    (main cutShortEnv [.uploader, .uploader, .main, .main, .uploader, .uploader]).exit =
      some (.fatal (.streamAudio "failed to send audio event, broken pipe")) ∧
    printed (main cutShortEnv
        [.uploader, .uploader, .main, .main, .uploader, .uploader]).trace = ["* good"] ∧
    alternativeCount twoResultEvent = 2 ∧
    ¬ (∀ es : List TranscriptEvent,
        (consumeEvents (es.map .transcript)).1 = (es.map specLines).flatten) := by
  have hc : consumeEvents [.transcript nilEvent, .transcript helloEvent] = ([], .panicked) := by
    simp [consumeEvents, renderEvent, nilEvent]
  have hl : ([nilEvent, helloEvent].map specLines).flatten = ["* hello"] := by
    simp [specLines, TranscriptEvent.results, Result.alternatives, nilEvent, helloEvent,
      StringValue]
  refine ⟨rfl, hc, hl, ?_, ?_, rfl, ?_, ?_, ?_, ?_⟩
  rotate_right
  · intro h
    have h1 := h [nilEvent, helloEvent]
    rw [hl] at h1
    simp only [List.map_cons, List.map_nil] at h1
    rw [hc] at h1
    cases h1
  · rw [main, start_ok _ ⟨16000, 1⟩ (by decide) rfl rfl rfl rfl rfl rfl]
    simp [runSched, step, stepMain, Proc.emit, okEnv, renderEvent, nilEvent]
  · rw [main, start_ok _ ⟨16000, 1⟩ (by decide) rfl rfl rfl rfl rfl rfl]
    simp [runSched, step, stepMain, Proc.emit, okEnv, renderEvent, nilEvent, printed, preOpen]
  · rw [main, start_ok _ ⟨16000, 1⟩ (by decide) rfl rfl rfl rfl rfl rfl]
    simp [runSched, step, stepMain, stepUp, Proc.emit, Proc.upFatalf, cutShortEnv, okEnv,
      streamIter_main_nil, uploadResult, renderEvent, renderResults, renderAlternatives,
      twoResultEvent]
  · rw [main, start_ok _ ⟨16000, 1⟩ (by decide) rfl rfl rfl rfl rfl rfl]
    simp [runSched, step, stepMain, stepUp, Proc.emit, Proc.upFatalf, cutShortEnv, okEnv,
      streamIter_main_nil, uploadResult, renderEvent, renderResults, renderAlternatives,
      twoResultEvent, printed, preOpen, StringValue]
  · simp [alternativeCount, twoResultEvent]


/-- C7 (amended): every transcript event consumed whose pointers are all
non-nil renders one line per alternative, as many lines as the sum over its
results of their numbers of alternatives, in the order of the event, each line
carrying the alternative's text; for a sequence of such events the event loop
prints the concatenation, in order, of the lines of the events, nothing being
dropped or merged. In a run of the program on such events the lines printed are
always an initial part of these lines; they are all of them in every run that
has ended otherwise than through the upload's fatal call; every run in which
the main goroutine takes `eventsFuel` steps has ended; and when the upload does
not fail every such run has printed all the lines. -/
theorem C7_lines_of_events_without_nil (e : TranscriptEvent) (es : List TranscriptEvent)
    (env : Env) (sched : List Tid) (he : e.noNil = true) (hes : ∀ x ∈ es, x.noNil = true) :
    renderEvent e = (specLines e, false) ∧
    (specLines e).length = alternativeCount e ∧
    consumeEvents (es.map .transcript) = ((es.map specLines).flatten, .drained) ∧
    (env.events = es.map .transcript → (start env).exit = none →
      (∃ rest, printed (main env sched).trace ++ rest = (es.map specLines).flatten) ∧
      (∀ x, (main env sched).exit = some x → (∀ err, x ≠ .fatal (.streamAudio err)) →
        printed (main env sched).trace = (es.map specLines).flatten) ∧
      (eventsFuel env.events ≤ sched.count .main → (main env sched).exit.isSome = true) ∧
      ((∀ k, env.sendErr k = none) → env.writerCloseErr = none →
        eventsFuel env.events ≤ sched.count .main →
        printed (main env sched).trace = (es.map specLines).flatten)) := by
  refine ⟨renderEvent_noNil e he, specLines_length e he, consumeEvents_transcripts es hes,
    ?_⟩
  intro hev hstart
  have hc : consumeEvents env.events = ((es.map specLines).flatten, .drained) := by
    rw [hev, consumeEvents_transcripts es hes]
  have hall : ∀ x, (main env sched).exit = some x → (∀ err, x ≠ .fatal (.streamAudio err)) →
      printed (main env sched).trace = (es.map specLines).flatten := by
    intro x hx hne
    rcases main_exit_cases env sched x hx with ⟨f, _, _, hl⟩ | ⟨err, h⟩ | ⟨h, _⟩
    · exact absurd hl (main_not_loading env sched hstart)
    · exact absurd h (hne err)
    · rw [← h, hc]
  refine ⟨?_, hall, main_ends env sched hstart, ?_⟩
  · obtain ⟨rest, h⟩ := main_printed_initial env sched
    rw [hc] at h
    exact ⟨rest, h⟩
  · intro hs hw hfuel
    have hsome := main_ends env sched hstart hfuel
    cases hx : (main env sched).exit with
    | none => rw [hx] at hsome; cases hsome
    | some x =>
      apply hall x hx
      intro err herr
      subst herr
      exact main_no_upload_exit env sched hs hw err hx

/-- C8 (as stated, on the code): in the run of `nilResultEvent` and then an
unexpected event the event loop panics inside the transcript event, after its
first line, and the run ends with status 2 without reaching the unexpected
event; and in the run of `sendFailUnexpectedEnv` the upload's fatal call ends
the process before the main goroutine has printed the line of the transcript
event that precedes the unexpected event. So it is not the case that every run
that has ended has ended at the call for the first unexpected event with the
lines of the transcript events before it printed. -/
theorem C8_run_ends_before_the_unexpected_event :
    consumeEvents [.transcript nilResultEvent, .other "X"] = (["* a"], .panicked) ∧
    specLines nilResultEvent = ["* a", "* b"] ∧
    (main (okEnv [] [.transcript nilResultEvent, .other "X"])
        [.main, .main, .main, .main, .main]).exit = some .panic ∧
    printed (main (okEnv [] [.transcript nilResultEvent, .other "X"])
        [.main, .main, .main, .main, .main]).trace = ["* a"] ∧
    (main sendFailUnexpectedEnv [.uploader, .uploader, .uploader, .uploader]).exit =
      some (.fatal (.streamAudio "failed to send audio event, broken pipe")) ∧
    printed (main sendFailUnexpectedEnv
        [.uploader, .uploader, .uploader, .uploader]).trace = [] ∧
    specLines helloEvent = ["* hello"] ∧
    ¬ (∀ (env : Env) (sched : List Tid) (pre : List TranscriptEvent) (t : String)
        (post : List Event) (x : Exit),
        env.events = pre.map .transcript ++ .other t :: post → (start env).exit = none →
        (main env sched).exit = some x →
        x = .fatal (.unexpectedEvent t) ∧
          printed (main env sched).trace = (pre.map specLines).flatten) := by
  have hp : (main (okEnv [] [.transcript nilResultEvent, .other "X"])
      [.main, .main, .main, .main, .main]).exit = some .panic := by
    rw [main, start_ok _ ⟨16000, 1⟩ (by decide) rfl rfl rfl rfl rfl rfl]
    simp [runSched, step, stepMain, Proc.emit, okEnv, renderEvent, renderResults,
      renderAlternatives, nilResultEvent]
  refine ⟨?_, ?_, hp, ?_, ?_, ?_, ?_, ?_⟩
  rotate_right
  · intro h
    have hs : (start (okEnv [] [.transcript nilResultEvent, .other "X"])).exit = none := by
      rw [start_ok _ ⟨16000, 1⟩ (by decide) rfl rfl rfl rfl rfl rfl]
    have h1 := h (okEnv [] [.transcript nilResultEvent, .other "X"])
      [.main, .main, .main, .main, .main] [nilResultEvent] "X" [] .panic rfl hs hp
    cases h1.1
  · simp [consumeEvents, renderEvent, renderResults, renderAlternatives, nilResultEvent,
      StringValue]
  · simp [specLines, TranscriptEvent.results, Result.alternatives, nilResultEvent, StringValue]
  · rw [main, start_ok _ ⟨16000, 1⟩ (by decide) rfl rfl rfl rfl rfl rfl]
    simp [runSched, step, stepMain, Proc.emit, okEnv, renderEvent, renderResults,
      renderAlternatives, nilResultEvent, printed, preOpen, StringValue]
  · rw [main, start_ok _ ⟨16000, 1⟩ (by decide) rfl rfl rfl rfl rfl rfl]
    simp [runSched, step, stepUp, Proc.emit, Proc.upFatalf, sendFailUnexpectedEnv, okEnv,
      streamIter_main_nil, uploadResult]
  · rw [main, start_ok _ ⟨16000, 1⟩ (by decide) rfl rfl rfl rfl rfl rfl]
    simp [runSched, step, stepUp, Proc.emit, Proc.upFatalf, sendFailUnexpectedEnv, okEnv,
      streamIter_main_nil, uploadResult, printed, preOpen]
  · simp [specLines, TranscriptEvent.results, Result.alternatives, helloEvent, StringValue]

/-- C8 (amended): when some received event is not a transcript event and the
transcript events before the first such event have all their pointers non-nil,
the event loop ends in the fatal call at that event, having printed the lines
of every transcript event before it and nothing of any event after it. For the
program: every run that has ended has ended in a fatal failure, at that call or
through the upload's fatal call; every run has printed an initial part of those
lines only, and all of them when it ended at that call; every run in which the
main goroutine takes `eventsFuel` steps has ended; and when the upload does not
fail every such run has ended at that call with all those lines printed. -/
theorem C8_first_unexpected_event_is_fatal (env : Env) (sched : List Tid)
    (pre : List TranscriptEvent) (t : String) (post : List Event)
    (hpre : ∀ x ∈ pre, x.noNil = true)
    (hev : env.events = pre.map .transcript ++ .other t :: post) :
    consumeEvents env.events = ((pre.map specLines).flatten, .unexpected t) ∧
    ((start env).exit = none →
      (∀ x, (main env sched).exit = some x →
        x = .fatal (.unexpectedEvent t) ∨ ∃ err, x = .fatal (.streamAudio err)) ∧
      (∃ rest, printed (main env sched).trace ++ rest = (pre.map specLines).flatten) ∧
      ((main env sched).exit = some (.fatal (.unexpectedEvent t)) →
        printed (main env sched).trace = (pre.map specLines).flatten) ∧
      (eventsFuel env.events ≤ sched.count .main → (main env sched).exit.isSome = true) ∧
      ((∀ k, env.sendErr k = none) → env.writerCloseErr = none →
        eventsFuel env.events ≤ sched.count .main →
        (main env sched).exit = some (.fatal (.unexpectedEvent t)) ∧
        printed (main env sched).trace = (pre.map specLines).flatten)) := by
  have hc : consumeEvents env.events = ((pre.map specLines).flatten, .unexpected t) := by
    rw [hev, consumeEvents_unexpected pre t post hpre]
  refine ⟨hc, ?_⟩
  intro hstart
  have hcases : ∀ x, (main env sched).exit = some x →
      (x = .fatal (.unexpectedEvent t) ∧
        printed (main env sched).trace = (pre.map specLines).flatten) ∨
      ∃ err, x = .fatal (.streamAudio err) := by
    intro x hx
    rcases main_exit_cases env sched x hx with ⟨f, _, _, hl⟩ | ⟨err, h⟩ | ⟨h, hk⟩
    · exact absurd hl (main_not_loading env sched hstart)
    · exact Or.inr ⟨err, h⟩
    · left
      rw [hc] at h hk
      simp only at h hk
      rcases hk with ⟨u, h1, h2⟩ | ⟨_, _, h2⟩ | ⟨_, _, h2 | h2⟩ | ⟨_, h2⟩ | ⟨_, h2⟩
      · simp only [ConsumeEnd.unexpected.injEq] at h2
        subst h2
        exact ⟨h1, h.symm⟩
      all_goals cases h2
  refine ⟨?_, ?_, ?_, main_ends env sched hstart, ?_⟩
  · intro x hx
    rcases hcases x hx with ⟨h, _⟩ | h
    · exact Or.inl h
    · exact Or.inr h
  · obtain ⟨rest, h⟩ := main_printed_initial env sched
    rw [hc] at h
    exact ⟨rest, h⟩
  · intro hx
    rcases hcases _ hx with ⟨_, h⟩ | ⟨err, h⟩
    · exact h
    · cases h
  · intro hs hw hfuel
    have hsome := main_ends env sched hstart hfuel
    cases hx : (main env sched).exit with
    | none => rw [hx] at hsome; cases hsome
    | some x =>
      rcases hcases x hx with ⟨h1, h2⟩ | ⟨err, h⟩
      · rw [h1]; exact ⟨rfl, h2⟩
      · subst h
        exact absurd hx (main_no_upload_exit env sched hs hw err)


/-! ## Session open -/

theorem opens_of_not_load (l : List Action) (h : ∀ a ∈ l, isLoadCall a = false) :
    opens l = [] := by
  induction l with
  | nil => rfl
  | cons a rest ih =>
    have ha := h a (by simp)
    have hr := ih fun b hb => h b (by simp [hb])
    cases a <;> simp_all [opens, isLoadCall]

theorem opens_replicate_read (n : Nat) :
    opens (List.replicate n Action.ReadRawSample) = [] := by
  induction n with
  | zero => rfl
  | succ n ih => simp [opens, List.replicate_succ]

theorem opens_readLoop (blocks : List (List Byte)) (readEnd : Option String) (buffer : Buffer) :
    opens (readLoop blocks readEnd buffer).1 = [] := by
  rw [readLoop_trace]
  have := opens_replicate_read (blocks.length + 1)
  cases readEnd <;> simp_all [opens]

/-- The session-open calls of the sequential part: none when anything before
the call fails, otherwise one, with the parameters of the decoded header. -/
theorem opens_mainLoad (env : Env) :
    (opens (mainLoad env).1 = [] ∧
      (env.Args.length < 2 ∨ env.statErr ≠ none ∨ env.openErr ≠ none ∨
        (∃ e, env.newReader = .error e) ∨ env.newSessionErr ≠ none)) ∨
    (∃ h, env.newReader = .ok h ∧ 2 ≤ env.Args.length ∧ env.statErr = none ∧
      env.openErr = none ∧ env.newSessionErr = none ∧
      opens (mainLoad env).1 = [sessionInput h]) := by
  rcases mainLoad_shape env with ⟨ha, h⟩ | ⟨_, e, he, h⟩ | ⟨_, _, e, he, h⟩ |
    ⟨_, _, _, e, he, h⟩ | ⟨ha, hs, ho, hd, hr, ⟨e, he, h⟩ | ⟨hn, e, he, h⟩ | ⟨hn, hst, h⟩⟩
  · left; rw [h]; exact ⟨by simp [opens], Or.inl ha⟩
  · left; rw [h]; exact ⟨by simp [opens, preOpen], Or.inr (Or.inl (by simp [he]))⟩
  · left; rw [h]; exact ⟨by simp [opens, preOpen], Or.inr (Or.inr (Or.inl (by simp [he])))⟩
  · left; rw [h]
    exact ⟨by simp [opens, preOpen], Or.inr (Or.inr (Or.inr (Or.inl ⟨e, he⟩)))⟩
  · left; rw [h]
    exact ⟨by simp [opens, preOpen], Or.inr (Or.inr (Or.inr (Or.inr (by simp [he]))))⟩
  · right; rw [h]
    exact ⟨hd, hr, ha, hs, ho, hn, by simp [opens, preOpen]⟩
  · right; rw [h]
    refine ⟨hd, hr, ha, hs, ho, hn, ?_⟩
    have := opens_readLoop env.blocks env.readEnd (NewBuffer (makeBytes frameSize))
    simp [opens, preOpen] at this ⊢
    exact this

theorem opens_main (env : Env) (sched : List Tid) :
    opens (main env sched).trace = opens (mainLoad env).1 := by
  obtain ⟨conc, h, hc⟩ := main_trace env sched
  rw [h]
  have := opens_of_not_load conc hc
  simp [opens] at this ⊢
  exact this

theorem int64_small (n : Nat) (h : n < 2 ^ 63) : int64 n = (n : Int) := by
  have h1 : n % 2 ^ 64 = n := Nat.mod_eq_of_lt (by omega)
  unfold int64
  rw [h1, if_pos h]

/-- C9: when the container header decodes, every session-open call of the run
carries the sample rate and the channel count the decoder reports, with channel
identification enabled, the language `en-US`, the encoding `pcm` and
partial-result stabilization disabled; and when the SDK session is created too,
the run makes exactly one such call. -/
theorem C9_session_parameters (env : Env) (sched : List Tid) (h : WavHeader)
    (hdr : env.newReader = .ok h) (hrate : h.SampleRate < 2 ^ 32)
    (hch : h.NumChannels < 2 ^ 16) :
    (∀ input ∈ opens (main env sched).trace,
      input = { EnableChannelIdentification := true, LanguageCode := "en-US",
                MediaEncoding := "pcm", MediaSampleRateHertz := h.SampleRate,
                NumberOfChannels := h.NumChannels,
                EnablePartialResultsStabilization := false }) ∧
    (2 ≤ env.Args.length → env.statErr = none → env.openErr = none →
      env.newSessionErr = none →
      opens (main env sched).trace =
        [{ EnableChannelIdentification := true, LanguageCode := "en-US",
           MediaEncoding := "pcm", MediaSampleRateHertz := h.SampleRate,
           NumberOfChannels := h.NumChannels,
           EnablePartialResultsStabilization := false }]) := by
  have hin : sessionInput h =
      { EnableChannelIdentification := true, LanguageCode := "en-US",
        MediaEncoding := "pcm", MediaSampleRateHertz := h.SampleRate,
        NumberOfChannels := h.NumChannels,
        EnablePartialResultsStabilization := false } := by
    simp [sessionInput, LanguageCodeEnUs, MediaEncodingPcm,
      int64_small h.SampleRate (by omega), int64_small h.NumChannels (by omega)]
  rw [opens_main]
  rcases opens_mainLoad env with ⟨h0, hfail⟩ | ⟨h', hd', _, _, _, _, hop⟩
  · refine ⟨by simp [h0], ?_⟩
    intro ha hs ho hn
    rcases hfail with hf | hf | hf | ⟨e, hf⟩ | hf
    · omega
    · exact absurd hs hf
    · exact absurd ho hf
    · rw [hdr] at hf; cases hf
    · exact absurd hn hf
  · rw [hdr] at hd'
    cases hd'
    rw [hop, hin]
    exact ⟨by simp, fun _ _ _ _ => rfl⟩


/-! ## Order of decoding and session open -/

theorem step_exited (env : Env) (t : Tid) (p : Proc) (x : Exit) (h : p.exit = some x) :
    step env t p = p := by
  cases t <;> simp [step, stepMain, stepUp, h]

theorem runSched_exited (env : Env) (sched : List Tid) :
    ∀ (p : Proc) (x : Exit), p.exit = some x → runSched env sched p = p := by
  induction sched with
  | nil => intro p x _; rfl
  | cons t rest ih =>
    intro p x h
    rw [runSched, step_exited env t p x h]
    exact ih p x h

theorem main_exit_of_load_error (env : Env) (sched : List Tid) (f : Fatal)
    (h : (mainLoad env).2 = .error f) : (main env sched).exit = some (.fatal f) := by
  have hs : (start env).exit = some (.fatal f) := by rw [start_exit, h]
  rw [main, runSched_exited env sched (start env) _ hs, hs]

theorem mem_opens (l : List Action) (input : StartStreamTranscriptionInput)
    (h : .StartStreamTranscription input ∈ l) : opens l ≠ [] := by
  induction l with
  | nil => simp at h
  | cons a rest ih =>
    rcases List.mem_cons.mp h with rfl | h
    · simp [opens]
    · have := ih h
      cases a <;> simp_all [opens]

theorem opens_append (l1 l2 : List Action) : opens (l1 ++ l2) = opens l1 ++ opens l2 := by
  simp [opens, List.filterMap_append]

theorem opens_cons_open (input : StartStreamTranscriptionInput) (l : List Action) :
    opens (.StartStreamTranscription input :: l) = input :: opens l := by
  simp [opens]

/-- A trace with one session-open call splits around that call in one way. -/
theorem split_at_open (pre post P Q : List Action) (i j : StartStreamTranscriptionInput)
    (h : pre ++ .StartStreamTranscription i :: post = P ++ .StartStreamTranscription j :: Q)
    (hP : opens P = []) (hQ : opens Q = []) : pre = P := by
  have ho := congrArg opens h
  rw [opens_append, opens_append, opens_cons_open, opens_cons_open, hP, hQ] at ho
  have hpre : opens pre = [] := by
    cases hx : opens pre with
    | nil => rfl
    | cons a r =>
      rw [hx] at ho
      have := congrArg List.length ho
      simp at this
  rcases List.append_eq_append_iff.mp h with ⟨m, h1, h2⟩ | ⟨m, h1, h2⟩
  · cases m with
    | nil => simpa using h1.symm
    | cons x m' =>
      simp at h2
      have hmem : Action.StartStreamTranscription i ∈ P := by
        rw [h1, ← h2.1]; simp
      exact absurd hP (mem_opens P i hmem)
  · cases m with
    | nil => simpa using h1
    | cons x m' =>
      simp at h2
      have hmem : Action.StartStreamTranscription j ∈ pre := by
        rw [h1, ← h2.1]; simp
      exact absurd hpre (mem_opens pre j hmem)

/-- The trace of the sequential part when it reaches the session-open call. -/
theorem mainLoad_open_split (env : Env) (hne : opens (mainLoad env).1 ≠ []) :
    ∃ h tail, env.newReader = .ok h ∧
      (mainLoad env).1 = preOpen ++ .StartStreamTranscription (sessionInput h) :: tail ∧
      opens tail = [] := by
  rcases mainLoad_shape env with ⟨ha, h⟩ | ⟨_, e, he, h⟩ | ⟨_, _, e, he, h⟩ |
    ⟨_, _, _, e, he, h⟩ | ⟨ha, hs, ho, hd, hr, ⟨e, he, h⟩ | ⟨hn, e, he, h⟩ | ⟨hn, hst, h⟩⟩
  all_goals rw [h] at hne ⊢
  all_goals try (exfalso; apply hne; simp [opens, preOpen]; done)
  · exact ⟨hd, _, hr, rfl, by simp [opens]⟩
  · refine ⟨hd, _, hr, rfl, ?_⟩
    have := opens_readLoop env.blocks env.readEnd (NewBuffer (makeBytes frameSize))
    simp [opens] at this ⊢
    exact this

/-- Only a run whose session-open call returned reads samples. -/
theorem mainLoad_read_split (env : Env) (hmem : Action.ReadRawSample ∈ (mainLoad env).1) :
    ∃ h tail, (mainLoad env).1 =
      (preOpen ++ [.StartStreamTranscription (sessionInput h)]) ++ tail := by
  rcases mainLoad_shape env with ⟨ha, h⟩ | ⟨_, e, he, h⟩ | ⟨_, _, e, he, h⟩ |
    ⟨_, _, _, e, he, h⟩ | ⟨ha, hs, ho, hd, hr, ⟨e, he, h⟩ | ⟨hn, e, he, h⟩ | ⟨hn, hst, h⟩⟩
  all_goals rw [h] at hmem ⊢
  all_goals try (exfalso; simp [preOpen] at hmem; done)
  exact ⟨hd, .println "Loading wav file into buffer" ::
    (readLoop env.blocks env.readEnd (NewBuffer (makeBytes frameSize))).1, by simp⟩


/-- C4 (as stated, on the code): in the run of `readFailEnv` the session is
opened before any sample block is read, and the run, which ends on a sample
read error, has opened the session. So it is not the case that no sample read
follows a session-open call, nor that a run ending on a sample read error has
opened no session. -/
theorem C4_session_opened_before_samples_read :
    (main readFailEnv []).trace =
      preOpen ++ [.StartStreamTranscription (sessionInput ⟨16000, 1⟩),
        .println "Loading wav file into buffer", .ReadRawSample, .ReadRawSample,
        .fatalf (.readSample "unexpected EOF")] ∧
    (main readFailEnv []).exit = some (.fatal (.readSample "unexpected EOF")) ∧
    opens (main readFailEnv []).trace = [sessionInput ⟨16000, 1⟩] ∧
    ¬ (∀ (env : Env) (sched : List Tid) (pre post : List Action)
        (input : StartStreamTranscriptionInput),
        (main env sched).trace = pre ++ .StartStreamTranscription input :: post →
        Action.ReadRawSample ∉ post) ∧
    ¬ (∀ (env : Env) (sched : List Tid) (e : String),
        (mainLoad env).2 = .error (.readSample e) → opens (main env sched).trace = []) := by
  refine ⟨rfl, rfl, rfl, ?_, ?_⟩
  · intro h
    have h1 := h readFailEnv [] preOpen
      [.println "Loading wav file into buffer", .ReadRawSample, .ReadRawSample,
        .fatalf (.readSample "unexpected EOF")] (sessionInput ⟨16000, 1⟩) rfl
    simp at h1
  · intro h
    have h1 : opens (main readFailEnv []).trace = [] := h readFailEnv [] "unexpected EOF" rfl
    have h2 : opens (main readFailEnv []).trace = [sessionInput ⟨16000, 1⟩] := rfl
    rw [h2] at h1
    cases h1

/-- C4 (amended): in every run the container header is decoded before the
session is opened: whatever precedes a session-open call contains the
`wav.NewReader` call, which succeeded, and no sample read; a run in which the
argument check, stat, open or header decoding fails never opens a session. The
sample blocks are read after the session is opened: whatever precedes a sample
read contains the session-open call, and a run in which reading a sample block
fails with an error other than end-of-input ends with the session opened. -/
theorem C4_header_before_open_samples_after (env : Env) (sched : List Tid) :
    (∀ pre input post,
      (main env sched).trace = pre ++ .StartStreamTranscription input :: post →
      .wavNewReader ∈ pre ∧ (∃ h, env.newReader = .ok h) ∧ .ReadRawSample ∉ pre) ∧
    ((env.Args.length < 2 ∨ env.statErr ≠ none ∨ env.openErr ≠ none ∨
        ∃ e, env.newReader = .error e) →
      opens (main env sched).trace = []) ∧
    (∀ pre post, (main env sched).trace = pre ++ .ReadRawSample :: post →
      ∃ input, .StartStreamTranscription input ∈ pre) ∧
    (∀ e, (mainLoad env).2 = .error (.readSample e) →
      (main env sched).exit = some (.fatal (.readSample e)) ∧
      opens (main env sched).trace ≠ []) := by
  obtain ⟨conc, htr, hconc⟩ := main_trace env sched
  have hoc : opens conc = [] := opens_of_not_load conc hconc
  refine ⟨?_, ?_, ?_, ?_⟩
  · intro pre input post h
    have hne : opens (mainLoad env).1 ≠ [] := by
      rw [← opens_main env sched, h, opens_append, opens_cons_open]
      simp
    obtain ⟨hd, tail, hr, hml, htail⟩ := mainLoad_open_split env hne
    rw [htr, hml, List.append_assoc, List.cons_append] at h
    have hpre : pre = preOpen :=
      split_at_open pre post preOpen (tail ++ conc) input (sessionInput hd) h.symm
        (by simp [opens, preOpen]) (by rw [opens_append, htail, hoc]; rfl)
    subst hpre
    exact ⟨by simp [preOpen], ⟨hd, hr⟩, by simp [preOpen]⟩
  · intro hfail
    rw [opens_main]
    rcases opens_mainLoad env with ⟨h0, _⟩ | ⟨hd, hr, ha, hs, ho, _, _⟩
    · exact h0
    · rcases hfail with hf | hf | hf | ⟨e, hf⟩
      · omega
      · exact absurd hs hf
      · exact absurd ho hf
      · rw [hr] at hf; cases hf
  · intro pre post h
    have hmem : Action.ReadRawSample ∈ (mainLoad env).1 := by
      have h1 : Action.ReadRawSample ∈ (mainLoad env).1 ++ conc := by
        rw [← htr, h]; simp
      rcases List.mem_append.mp h1 with h2 | h2
      · exact h2
      · have := hconc _ h2
        simp [isLoadCall] at this
    obtain ⟨hd, tail, hml⟩ := mainLoad_read_split env hmem
    rw [htr, hml, List.append_assoc] at h
    rcases List.append_eq_append_iff.mp h with ⟨m, h1, h2⟩ | ⟨m, h1, h2⟩
    · refine ⟨sessionInput hd, ?_⟩
      rw [h1]; simp
    · cases m with
      | nil =>
        refine ⟨sessionInput hd, ?_⟩
        have : pre = preOpen ++ [.StartStreamTranscription (sessionInput hd)] := by
          simpa using h1.symm
        rw [this]; simp
      | cons x m' =>
        exfalso
        simp at h2
        have hx : Action.ReadRawSample ∈
            preOpen ++ [Action.StartStreamTranscription (sessionInput hd)] := by
          rw [h1, ← h2.1]; simp
        simp [preOpen] at hx
  · intro e he
    refine ⟨main_exit_of_load_error env sched _ he, ?_⟩
    rw [opens_main]
    rcases opens_mainLoad env with ⟨_, hfail⟩ | ⟨hd, _, _, _, _, _, hop⟩
    · exfalso
      rcases mainLoad_shape env with ⟨ha, h⟩ | ⟨_, e, he', h⟩ | ⟨_, _, e, he', h⟩ |
        ⟨_, _, _, e, he', h⟩ | ⟨ha, hs, ho, hd, hr, ⟨e, he', h⟩ | ⟨hn, e, he', h⟩ | ⟨hn, hst, h⟩⟩
      all_goals rw [h] at he
      all_goals try (simp at he; done)
      rcases hfail with hf | hf | hf | ⟨e, hf⟩ | hf
      · omega
      · exact absurd hs hf
      · exact absurd ho hf
      · rw [hr] at hf; cases hf
      · exact absurd hn hf
    · rw [hop]; simp




/-! ## Runs that end the process -/

/-- C3, evaluated on the code: for a file without sample blocks the buffer
handed to the upload holds `frameSize` zero bytes, and in the run in which the
uploader runs to its end and the event channel then closes with no event and no
error, one frame of `frameSize` zero bytes is sent before the writer is closed;
the run prints no transcript line and returns normally. -/
theorem C3_zero_sample_run_sends_one_frame :
    loadBuffer [] = .ok ⟨List.replicate frameSize 0⟩ ∧
    (main (okEnv [] [])
        [.uploader, .uploader, .uploader, .uploader, .main, .main, .main, .main]).trace =
      okLoadTrace 0 ++ [.println "Starting transcription",
        .Send (List.replicate frameSize 0), .writerClose, .streamClose, .fileClose] ∧
    (main (okEnv [] [])
        [.uploader, .uploader, .uploader, .uploader, .main, .main, .main, .main]).exit =
      some .returned := by
  refine ⟨?_, ?_, ?_⟩
  · simpa [makeBytes] using loadBuffer_eq []
  all_goals rw [main, start_ok _ ⟨16000, 1⟩ (by decide) rfl rfl rfl rfl rfl rfl]
  all_goals simp [runSched, step, stepUp, stepMain, streamIter_main_nil, Proc.emit, okEnv,
      uploadResult, streamIter, Buffer.Read, frameSize_ne_zero, okLoadTrace]

/-- When the uploader goroutine gets to run after `StreamAudioFromReader`
returned an error, it writes its diagnostic and, at its next step, ends the
process with status 1. -/
theorem stepUp_returned_error (env : Env) (p : Proc) (e : String) (hexit : p.exit = none)
    (hup : p.up = .returned (some e)) :
    (stepUp env p).exit = none ∧ (stepUp env p).up = .fatal e ∧
    (stepUp env (stepUp env p)).exit = some (.fatal (.streamAudio e)) := by
  simp [stepUp, hexit, hup, Proc.upFatalf]

/-- C5, evaluated on the code: with the session opened, the run that ends on a
sample read error, the run that ends on an unexpected event, the run that ends
on a stream error and the run that ends on an upload error each end with
status 1 and without any call of `stream.Close()`. -/
theorem C5_fatal_exits_skip_stream_close :
    ((main readFailEnv []).exit = some (.fatal (.readSample "unexpected EOF")) ∧
      opens (main readFailEnv []).trace = [sessionInput ⟨16000, 1⟩] ∧
      Action.streamClose ∉ (main readFailEnv []).trace) ∧
    ((main (okEnv [] [.other "X"]) [.main, .main]).exit =
        some (.fatal (.unexpectedEvent "X")) ∧
      opens (main (okEnv [] [.other "X"]) [.main, .main]).trace = [sessionInput ⟨16000, 1⟩] ∧
      Action.streamClose ∉ (main (okEnv [] [.other "X"]) [.main, .main]).trace) ∧
    ((main streamErrEnv [.main, .main, .main]).exit =
        some (.fatal (.streamErr "connection reset")) ∧
      opens (main streamErrEnv [.main, .main, .main]).trace = [sessionInput ⟨16000, 1⟩] ∧
      Action.streamClose ∉ (main streamErrEnv [.main, .main, .main]).trace) ∧
    ((main sendFailEnv [.uploader, .uploader, .uploader, .uploader]).exit =
        some (.fatal (.streamAudio "failed to send audio event, broken pipe")) ∧
      opens (main sendFailEnv [.uploader, .uploader, .uploader, .uploader]).trace =
        [sessionInput ⟨16000, 1⟩] ∧
      Action.streamClose ∉
        (main sendFailEnv [.uploader, .uploader, .uploader, .uploader]).trace) ∧
    Exit.code (.fatal (.readSample "unexpected EOF")) = 1 := by
  refine ⟨⟨rfl, rfl, ?_⟩, ⟨?_, ?_, ?_⟩, ⟨?_, ?_, ?_⟩, ⟨?_, ?_, ?_⟩, rfl⟩
  · have h : (main readFailEnv []).trace =
        preOpen ++ [.StartStreamTranscription (sessionInput ⟨16000, 1⟩),
          .println "Loading wav file into buffer", .ReadRawSample, .ReadRawSample,
          .fatalf (.readSample "unexpected EOF")] := rfl
    rw [h]
    simp [preOpen]
  all_goals rw [main, start_ok _ ⟨16000, 1⟩ (by decide) rfl rfl rfl rfl rfl rfl]
  all_goals simp [runSched, step, stepUp, stepMain, streamIter_main, streamIter_main_nil,
      Proc.emit, Proc.mainFatalf, Proc.upFatalf, okEnv, sendFailEnv, streamErrEnv,
      uploadResult, preOpen, opens]

/-- C6, evaluated on the code: in the run of `sendFailEnv` in which the first
`Send` fails, `StreamAudioFromReader` returns its error, and the main goroutine
then receives the transcript event, prints its line, finds the event channel
closed and no stream error and returns before the uploader goroutine runs its
fatal call, the process ends with status 0. The same happens in the run of
`writerCloseFailEnv`, where the upload fails on closing the writer, and in the
run of `sendFailEnv` in which the uploader's fatal call has written its
diagnostic and the main goroutine returns before that call ends the process. -/
theorem C6_upload_error_lost_when_main_returns_first :
    (main sendFailEnv
        [.uploader, .uploader, .main, .main, .main, .main, .main, .main]).up =
      .returned (some "failed to send audio event, broken pipe") ∧
    (main sendFailEnv
        [.uploader, .uploader, .main, .main, .main, .main, .main, .main]).exit =
      some .returned ∧
    printed (main sendFailEnv
        [.uploader, .uploader, .main, .main, .main, .main, .main, .main]).trace =
      ["* hello"] ∧
    (main writerCloseFailEnv
        [.uploader, .uploader, .uploader, .main, .main, .main, .main, .main, .main]).up =
      .returned (some "failed to close stream, EOF") ∧
    (main writerCloseFailEnv
        [.uploader, .uploader, .uploader, .main, .main, .main, .main, .main, .main]).exit =
      some .returned ∧
    Exit.code .returned = 0 ∧
    (main sendFailEnv
        [.uploader, .uploader, .uploader, .main, .main, .main, .main, .main, .main]).up =
      .fatal "failed to send audio event, broken pipe" ∧
    (main sendFailEnv
        [.uploader, .uploader, .uploader, .main, .main, .main, .main, .main, .main]).exit =
      some .returned := by
  refine ⟨?_, ?_, ?_, ?_, ?_, rfl, ?_, ?_⟩
  all_goals rw [main, start_ok _ ⟨16000, 1⟩ (by decide) rfl rfl rfl rfl rfl rfl]
  all_goals simp [runSched, step, stepUp, stepMain, streamIter_main, streamIter_main_nil,
      Proc.emit, Proc.mainFatalf, Proc.upFatalf, sendFailEnv, writerCloseFailEnv, okEnv,
      uploadResult, preOpen, printed, renderEvent, renderResults, renderAlternatives,
      StringValue, streamIter, Buffer.Read, frameSize_ne_zero, helloEvent]


/-! ## The frames sent in a run -/

/-- C7 (amended) at a concrete run: two transcript events without nil
pointers, the main goroutine scheduled for ten steps with a step of the
uploader in between, no `Send` failing. -/
theorem C7_lines_of_events_without_nil_witness :
    helloEvent.noNil = true ∧
    (∀ x ∈ [helloEvent, twoResultEvent], x.noNil = true) ∧
    (okEnv [] [.transcript helloEvent, .transcript twoResultEvent]).events =
      [helloEvent, twoResultEvent].map .transcript ∧
    (start (okEnv [] [.transcript helloEvent, .transcript twoResultEvent])).exit = none ∧
    eventsFuel (okEnv [] [.transcript helloEvent, .transcript twoResultEvent]).events ≤
      [Tid.main, .uploader, .main, .main, .main, .main, .main, .main, .main, .main,
        .main].count .main ∧
    printed (main (okEnv [] [.transcript helloEvent, .transcript twoResultEvent])
      [.main, .uploader, .main, .main, .main, .main, .main, .main, .main, .main,
        .main]).trace = ([helloEvent, twoResultEvent].map specLines).flatten :=
  have hes : ∀ x ∈ [helloEvent, twoResultEvent], x.noNil = true := by
    intro x hx
    simp only [List.mem_cons, List.mem_singleton, List.not_mem_nil, or_false] at hx
    rcases hx with rfl | rfl <;> rfl
  have hstart :
      (start (okEnv [] [.transcript helloEvent, .transcript twoResultEvent])).exit = none := by
    rw [start_ok _ ⟨16000, 1⟩ (by decide) rfl rfl rfl rfl rfl rfl]
  have hfuel :
      eventsFuel (okEnv [] [.transcript helloEvent, .transcript twoResultEvent]).events ≤
        [Tid.main, .uploader, .main, .main, .main, .main, .main, .main, .main, .main,
          .main].count .main := by
    decide
  ⟨rfl, hes, rfl, hstart, hfuel,
    (C7_lines_of_events_without_nil helloEvent [helloEvent, twoResultEvent]
      (okEnv [] [.transcript helloEvent, .transcript twoResultEvent])
      [.main, .uploader, .main, .main, .main, .main, .main, .main, .main, .main, .main]
      rfl hes).2.2.2 rfl hstart |>.2.2.2 (fun _ => rfl) rfl hfuel⟩

/-- C8 (amended) at a concrete run: a transcript event, an unexpected event,
another transcript event; the main goroutine scheduled for four steps with a
step of the uploader in between, no `Send` failing. -/
theorem C8_first_unexpected_event_is_fatal_witness :
    (∀ x ∈ [helloEvent], x.noNil = true) ∧
    (okEnv [] [.transcript helloEvent, .other "X", .transcript twoResultEvent]).events =
      [helloEvent].map .transcript ++ .other "X" :: [.transcript twoResultEvent] ∧
    (start (okEnv [] [.transcript helloEvent, .other "X",
      .transcript twoResultEvent])).exit = none ∧
    eventsFuel (okEnv [] [.transcript helloEvent, .other "X",
        .transcript twoResultEvent]).events ≤
      [Tid.main, .uploader, .main, .main, .main].count .main ∧
    (main (okEnv [] [.transcript helloEvent, .other "X", .transcript twoResultEvent])
        [.main, .uploader, .main, .main, .main]).exit =
      some (.fatal (.unexpectedEvent "X")) ∧
    printed (main (okEnv [] [.transcript helloEvent, .other "X", .transcript twoResultEvent])
        [.main, .uploader, .main, .main, .main]).trace =
      ([helloEvent].map specLines).flatten :=
  have hpre : ∀ x ∈ [helloEvent], x.noNil = true := by
    intro x hx
    simp only [List.mem_singleton] at hx
    subst hx
    rfl
  have hstart : (start (okEnv [] [.transcript helloEvent, .other "X",
      .transcript twoResultEvent])).exit = none := by
    rw [start_ok _ ⟨16000, 1⟩ (by decide) rfl rfl rfl rfl rfl rfl]
  have hfuel : eventsFuel (okEnv [] [.transcript helloEvent, .other "X",
        .transcript twoResultEvent]).events ≤
      [Tid.main, .uploader, .main, .main, .main].count .main := by
    decide
  ⟨hpre, rfl, hstart, hfuel,
    (C8_first_unexpected_event_is_fatal
      (okEnv [] [.transcript helloEvent, .other "X", .transcript twoResultEvent])
      [.main, .uploader, .main, .main, .main] [helloEvent] "X" [.transcript twoResultEvent]
      hpre rfl).2 hstart |>.2.2.2.2 (fun _ => rfl) rfl hfuel⟩

/-- C9 at a concrete run: a 16 kHz mono file. -/
theorem C9_session_parameters_witness :
    (okEnv [] []).newReader = .ok ⟨16000, 1⟩ ∧
    opens (main (okEnv [] []) [.main, .uploader]).trace =
      [{ EnableChannelIdentification := true, LanguageCode := "en-US",
         MediaEncoding := "pcm", MediaSampleRateHertz := 16000,
         NumberOfChannels := 1,
         EnablePartialResultsStabilization := false }] :=
  ⟨rfl,
    (C9_session_parameters (okEnv [] []) [.main, .uploader] ⟨16000, 1⟩ rfl (by decide)
      (by decide)).2 (by decide) rfl rfl rfl⟩

/-- C4 (amended) at concrete runs: a file that does not exist, and a file
whose second sample read fails. -/
theorem C4_header_before_open_samples_after_witness :
    opens (main missingFileEnv [.main]).trace = [] ∧
    (mainLoad readFailEnv).2 = .error (.readSample "unexpected EOF") ∧
    (main readFailEnv [.main]).exit = some (.fatal (.readSample "unexpected EOF")) ∧
    opens (main readFailEnv [.main]).trace ≠ [] :=
  ⟨(C4_header_before_open_samples_after missingFileEnv [.main]).2.1
      (Or.inr (Or.inl (by simp [missingFileEnv]))),
    rfl,
    (C4_header_before_open_samples_after readFailEnv [.main]).2.2.2 "unexpected EOF" rfl⟩


end Transcriber
